import Mathlib

/-!
Verification of the grid-world spatial simulation core of the ascii-rpg
tutorial repository: the layered tile collision system (lesson 13) and the
agent perception / state machine / pathfinding pipeline (lesson 14,
`src/unnamed/part_003`).

The C code is shallowly embedded: C `int` becomes `Int`, C `float`
personality/timer scalars become `ℚ` (only compared and added at values
where the float computations are exact), flat C arrays become `List`s
indexed by `y * width + x`, and the linked entity lists become Lean lists.
Rendering-only fields (colors) are omitted.
-/

namespace AsciiRpg

/-- Collision classification, from `CollisionType` in lesson 13. -/
inductive CollisionType
  | NONE
  | SOLID
  | TRIGGER
  | DAMAGE
  | SLOW
deriving DecidableEq, Repr

/-- A collision rule, from `CollisionRule` in lesson 13. -/
structure CollisionRule where
  tile : Char
  type : CollisionType
  damage : Int
  speedModifier : ℚ
deriving DecidableEq, Repr

/-- The rule table `defaultRules` of lesson 13. -/
def defaultRules : List CollisionRule :=
  [⟨'#', .SOLID, 0, 1⟩,
   ⟨'~', .SLOW, 0, 1/2⟩,
   ⟨'^', .DAMAGE, 10, 1⟩,
   ⟨'+', .SOLID, 0, 1⟩,
   ⟨'=', .TRIGGER, 0, 1⟩]

/-- The two-layer map of lesson 13 (`LayeredMap`): a visual layer and a
collision layer, both flat arrays of size `width * height`. -/
structure LayeredMap where
  visual : List Char
  collision : List Char
  width : Int
  height : Int
deriving Repr

/-- A moving object of lesson 13 (`Entity`); the `next` pointer of the C
linked list is replaced by membership in a `List Entity`. -/
structure Entity where
  x : Int
  y : Int
  symbol : Char
  isSolid : Bool
  isAlive : Bool
  id : Int
deriving DecidableEq, Repr

/-- `GetEntityAt` from lesson 13: walk the entity list and return the first
live solid entity at `(x, y)` whose id is not `excludeId`. -/
def GetEntityAt (entityList : List Entity) (x y : Int) (excludeId : Int) :
    Option Entity :=
  entityList.find? fun current =>
    current.isAlive && decide (current.x = x) && decide (current.y = y) &&
      decide (current.id ≠ excludeId) && current.isSolid

/-- Result record of lesson 13 (`CollisionResult`); the C `Entity*` field
`entityHit` becomes an `Option Entity`. -/
structure CollisionResult where
  canMove : Bool
  type : CollisionType
  entityHit : Option Entity
  tileHit : Char
deriving DecidableEq, Repr

/-- The rule-scanning loop inside `CheckAllCollisions` (lesson 13): scan the
rule list in order; on a match record the tile and its kind, and on a SOLID
match stop with a denial. The boolean marks the early `return` taken by the
C code on a SOLID rule. -/
def applyRules : List CollisionRule → Char → CollisionResult →
    CollisionResult × Bool
  | [], _, res => (res, false)
  | r :: rest, tile, res =>
    if r.tile = tile then
      let res' : CollisionResult :=
        { res with tileHit := tile, type := r.type }
      if r.type = .SOLID then
        ({ res' with canMove := false }, true)
      else applyRules rest tile res'
    else applyRules rest tile res

/-- Read the collision layer at `(x, y)`, the C expression
`map->collision[y * map->width + x]` (callers bound-check first). -/
def tileAtMap (map : LayeredMap) (x y : Int) : Char :=
  map.collision.getD (y * map.width + x).toNat '.'

/-- `CheckAllCollisions` from lesson 13: bounds check, then tile rules, then
entity occupancy, in that order. -/
def CheckAllCollisions (map : LayeredMap) (entityList : List Entity)
    (mover : Entity) (newX newY : Int) : CollisionResult :=
  let result : CollisionResult := ⟨true, .NONE, none, '.'⟩
  if newX < 0 ∨ newX ≥ map.width ∨ newY < 0 ∨ newY ≥ map.height then
    { result with canMove := false, type := .SOLID }
  else
    let tile := tileAtMap map newX newY
    match applyRules defaultRules tile result with
    | (res, true) => res
    | (res, false) =>
      match GetEntityAt entityList newX newY mover.id with
      | some hit =>
        if hit.isSolid then
          { res with canMove := false, type := .SOLID, entityHit := some hit }
        else res
      | none => res

/-- `PushEntity` from lesson 13: displace the target one step further along
the mover→target vector, with no validation of the destination. -/
def PushEntity (mover target : Entity) : Entity :=
  let dx := target.x - mover.x
  let dy := target.y - mover.y
  { target with x := target.x + dx, y := target.y + dy }

/-- `SwapPositions` from lesson 13: mover and target exchange positions. -/
def SwapPositions (mover target : Entity) : Entity × Entity :=
  ({ mover with x := target.x, y := target.y },
   { target with x := mover.x, y := mover.y })

/-- `CanMoveTo` from lesson 13: bounds check, then deny exactly when some
rule classifies the collision tile as SOLID. -/
def CanMoveTo (map : LayeredMap) (x y : Int) (rules : List CollisionRule) :
    Bool :=
  if x < 0 ∨ x ≥ map.width ∨ y < 0 ∨ y ≥ map.height then false
  else
    let collisionTile := tileAtMap map x y
    if rules.any fun r => decide (r.tile = collisionTile) &&
        decide (r.type = CollisionType.SOLID) then false
    else true

section CollisionChecks

/-- Scratch checks of the embedding on the lesson's own demo data. -/
example :
    (CheckAllCollisions ⟨List.replicate 9 '.', List.replicate 9 '.', 3, 3⟩
      [] ⟨0, 0, '@', true, true, 1⟩ 3 1).canMove = false := by decide

example :
    (CheckAllCollisions
      ⟨List.replicate 9 '.',
       ['.', '.', '.', '.', '=', '.', '.', '.', '.'], 3, 3⟩
      [] ⟨0, 0, '@', true, true, 1⟩ 1 1) =
    ⟨true, .TRIGGER, none, '='⟩ := by decide

example :
    (CheckAllCollisions ⟨List.replicate 9 '.', List.replicate 9 '.', 3, 3⟩
      [⟨1, 1, 'N', true, true, 2⟩] ⟨0, 0, '@', true, true, 1⟩ 1 1).canMove
      = false := by decide

end CollisionChecks

lemma applyRules_early_canMove (rules : List CollisionRule) (tile : Char) :
    ∀ res : CollisionResult, (applyRules rules tile res).2 = true →
      (applyRules rules tile res).1.canMove = false := by
  induction rules with
  | nil => intro res h; simp [applyRules] at h
  | cons r rest ih =>
    intro res h
    by_cases h1 : r.tile = tile
    · by_cases h2 : r.type = CollisionType.SOLID
      · simp [applyRules, h1, h2]
      · simp only [applyRules, if_pos h1, if_neg h2] at h ⊢
        exact ih _ h
    · simp only [applyRules, if_neg h1] at h ⊢
      exact ih _ h

/-- C1: `CheckAllCollisions` resolves a requested move in the fixed order
bounds check, tile classification, entity occupancy, stopping at the first
denial: an out-of-bounds destination is denied with kind SOLID; a tile the
rule table classifies SOLID (`'#'` or `'+'`) denies; a TRIGGER / DAMAGE /
SLOW tile (`'='` / `'^'` / `'~'`) allows the move with that kind carried in
the result when no occupant blocks; and a live solid occupant at the
destination other than the mover always denies the move (the only policy
for entity pairs is BLOCK). -/
theorem checkAllCollisions_resolution_order (map : LayeredMap)
    (entityList : List Entity) (mover : Entity) (newX newY : Int) :
    ((newX < 0 ∨ newX ≥ map.width ∨ newY < 0 ∨ newY ≥ map.height) →
      (CheckAllCollisions map entityList mover newX newY).canMove = false ∧
      (CheckAllCollisions map entityList mover newX newY).type =
        CollisionType.SOLID) ∧
    (¬(newX < 0 ∨ newX ≥ map.width ∨ newY < 0 ∨ newY ≥ map.height) →
      ((tileAtMap map newX newY = '#' ∨ tileAtMap map newX newY = '+') →
        (CheckAllCollisions map entityList mover newX newY).canMove = false ∧
        (CheckAllCollisions map entityList mover newX newY).type =
          CollisionType.SOLID) ∧
      (GetEntityAt entityList newX newY mover.id = none →
        (tileAtMap map newX newY = '=' →
          CheckAllCollisions map entityList mover newX newY =
            ⟨true, CollisionType.TRIGGER, none, '='⟩) ∧
        (tileAtMap map newX newY = '^' →
          CheckAllCollisions map entityList mover newX newY =
            ⟨true, CollisionType.DAMAGE, none, '^'⟩) ∧
        (tileAtMap map newX newY = '~' →
          CheckAllCollisions map entityList mover newX newY =
            ⟨true, CollisionType.SLOW, none, '~'⟩))) ∧
    ((∃ occ ∈ entityList, occ.isAlive = true ∧ occ.isSolid = true ∧
        occ.x = newX ∧ occ.y = newY ∧ occ.id ≠ mover.id) →
      (CheckAllCollisions map entityList mover newX newY).canMove = false) := by
  refine ⟨fun h => ?_, fun hIn => ⟨fun htile => ?_, fun hent => ⟨?_, ?_, ?_⟩⟩,
    fun hocc => ?_⟩
  · simp [CheckAllCollisions, h]
  · rcases htile with h' | h' <;>
      simp [CheckAllCollisions, hIn, h', applyRules, defaultRules]
  · intro h'
    simp [CheckAllCollisions, hIn, h', hent, applyRules, defaultRules]
  · intro h'
    simp [CheckAllCollisions, hIn, h', hent, applyRules, defaultRules]
  · intro h'
    simp [CheckAllCollisions, hIn, h', hent, applyRules, defaultRules]
  · rcases hocc with ⟨occ, hmem, ha, hs, hx, hy, hid⟩
    by_cases hIn : newX < 0 ∨ newX ≥ map.width ∨ newY < 0 ∨ newY ≥ map.height
    · simp [CheckAllCollisions, hIn]
    · have hfind : GetEntityAt entityList newX newY mover.id ≠ none := by
        intro hnone
        rw [GetEntityAt, List.find?_eq_none] at hnone
        have := hnone occ hmem
        simp [ha, hs, hx, hy, hid] at this
      rcases hcase : GetEntityAt entityList newX newY mover.id with _ | hit
      · exact absurd hcase hfind
      · have hpred := List.find?_some hcase
        have hsolid : hit.isSolid = true := by
          simp only [Bool.and_eq_true] at hpred
          exact hpred.2
        rcases happ : applyRules defaultRules (tileAtMap map newX newY)
            ⟨true, CollisionType.NONE, none, '.'⟩ with ⟨res, b⟩
        cases b
        · simp [CheckAllCollisions, hIn, happ, hcase, hsolid]
        · have := applyRules_early_canMove defaultRules
            (tileAtMap map newX newY) ⟨true, CollisionType.NONE, none, '.'⟩
            (by rw [happ])
          rw [happ] at this
          simp only [] at this
          simp [CheckAllCollisions, hIn, happ, this]

/-- Witness for C1 at concrete inputs: a 3×3 map with a trigger tile at
(1, 1), checked for an out-of-bounds move, a wall move, a trigger move, and
a move into an occupied cell. -/
theorem checkAllCollisions_resolution_order_witness :
    (CheckAllCollisions
      ⟨List.replicate 9 '.', ['#', '.', '.', '.', '=', '.', '.', '.', '.'],
        3, 3⟩ [] ⟨1, 1, '@', true, true, 1⟩ 3 1).canMove = false ∧
    (CheckAllCollisions
      ⟨List.replicate 9 '.', ['#', '.', '.', '.', '=', '.', '.', '.', '.'],
        3, 3⟩ [] ⟨1, 1, '@', true, true, 1⟩ 0 0).type = CollisionType.SOLID ∧
    (CheckAllCollisions
      ⟨List.replicate 9 '.', ['#', '.', '.', '.', '=', '.', '.', '.', '.'],
        3, 3⟩ [] ⟨1, 1, '@', true, true, 1⟩ 1 1) =
      ⟨true, CollisionType.TRIGGER, none, '='⟩ ∧
    (CheckAllCollisions
      ⟨List.replicate 9 '.', ['#', '.', '.', '.', '=', '.', '.', '.', '.'],
        3, 3⟩ [⟨2, 1, 'N', true, true, 2⟩]
      ⟨1, 1, '@', true, true, 1⟩ 2 1).canMove = false := by
  refine ⟨?_, ?_, ?_, ?_⟩
  · exact ((checkAllCollisions_resolution_order _ _ _ 3 1).1
      (by decide)).1
  · exact ((checkAllCollisions_resolution_order _ _ _ 0 0).2.1
      (by decide)).1 (by decide) |>.2
  · exact (((checkAllCollisions_resolution_order _ _ _ 1 1).2.1
      (by decide)).2 (by decide)).1 (by decide)
  · exact (checkAllCollisions_resolution_order _
      [⟨2, 1, 'N', true, true, 2⟩] ⟨1, 1, '@', true, true, 1⟩ 2 1).2.2
      ⟨⟨2, 1, 'N', true, true, 2⟩, by decide, by decide, by decide, by decide,
        by decide, by decide⟩

/-! ### Lesson 14 (`src/unnamed/part_003`): perception, AI, pathfinding -/

/-- Behavior states, from `AIState` in lesson 14. -/
inductive AIState
  | IDLE
  | PATROL
  | CHASE
  | FLEE
  | ATTACK
  | SEARCH
  | DEAD
deriving DecidableEq, Repr

/-- Enemy archetypes, from `AIType` in lesson 14. -/
inductive AIType
  | ZOMBIE
  | GOBLIN
  | GUARD
  | ARCHER
  | BOSS
deriving DecidableEq, Repr

/-- The `Enemy` struct of lesson 14. C `float` fields are embedded as `ℚ`;
the rendering-only `color` field is omitted, and the `next` pointer of the
linked list is replaced by membership in a `List Enemy`. The `id` field is
the one `RaiseAlert` reads. -/
structure Enemy where
  x : Int
  y : Int
  symbol : Char
  health : Int
  maxHealth : Int
  type : AIType
  state : AIState
  sightRange : Int
  hearingRange : Int
  canSeePlayer : Bool
  lastSeenPlayerX : Int
  lastSeenPlayerY : Int
  moveSpeed : ℚ
  timeSinceMove : ℚ
  patrolIndex : Int
  attackDamage : Int
  attackCooldown : ℚ
  timeSinceAttack : ℚ
  courage : ℚ
  aggression : ℚ
  id : Int
deriving DecidableEq, Repr

/-- The `Player` struct used by lesson 14 (color omitted). -/
structure Player where
  x : Int
  y : Int
  symbol : Char
  health : Int
  maxHealth : Int
deriving DecidableEq, Repr

/-- `ManhattanDistance` from lesson 14. -/
def ManhattanDistance (x1 y1 x2 y2 : Int) : Int :=
  |x2 - x1| + |y2 - y1|

/-- Read a lesson-14 flat character map at `(x, y)`, the C expression
`map[y * mapWidth + x]` (an out-of-range read is undefined behavior in the
C source; the embedding returns `'.'` there). -/
def mapCharAt (map : List Char) (mapWidth : Int) (x y : Int) : Char :=
  map.getD (y * mapWidth + x).toNat '.'

/-- The Bresenham occlusion loop of `CanSeePosition`: starting from the
observer, step toward the target, returning false when the current tile is
a wall and true on reaching the target. The C `while` loop is embedded
with a fuel argument; `CanSeePosition` passes fuel `dx + dy`, which bounds
the number of iterations of the C loop. -/
def sightLoop (map : List Char) (mapWidth : Int) (tx ty sx sy dx dy : Int) :
    Nat → Int → Int → Int → Bool
  | 0, _, _, _ => true
  | fuel + 1, x, y, err =>
    if x = tx ∧ y = ty then true
    else if mapCharAt map mapWidth x y = '#' then false
    else
      let e2 := 2 * err
      let err1 := if e2 > -dy then err - dy else err
      let x1 := if e2 > -dy then x + sx else x
      let err2 := if e2 < dx then err1 + dx else err1
      let y1 := if e2 < dx then y + sy else y
      sightLoop map mapWidth tx ty sx sy dx dy fuel x1 y1 err2

/-- The cells visited by the occlusion loop of `CanSeePosition`, in order:
every cell the loop tests, which excludes the target cell. -/
def bresPointsAux (tx ty sx sy dx dy : Int) :
    Nat → Int → Int → Int → List (Int × Int)
  | 0, _, _, _ => []
  | fuel + 1, x, y, err =>
    if x = tx ∧ y = ty then []
    else
      let e2 := 2 * err
      let err1 := if e2 > -dy then err - dy else err
      let x1 := if e2 > -dy then x + sx else x
      let err2 := if e2 < dx then err1 + dx else err1
      let y1 := if e2 < dx then y + sy else y
      (x, y) :: bresPointsAux tx ty sx sy dx dy fuel x1 y1 err2

/-- The discrete Bresenham segment from `(x0, y0)` toward `(tx, ty)`, as
the list of cells the occlusion loop of `CanSeePosition` tests: it starts
at the observer's cell and stops before the target cell. -/
def bresLine (x0 y0 tx ty : Int) : List (Int × Int) :=
  let dx := |tx - x0|
  let dy := |ty - y0|
  let sx : Int := if x0 < tx then 1 else -1
  let sy : Int := if y0 < ty then 1 else -1
  bresPointsAux tx ty sx sy dx dy (dx + dy).toNat x0 y0 (dx - dy)

/-- `CanSeePosition` from lesson 14: reject when the Manhattan distance
exceeds the sight range, otherwise rasterize the line to the target and
fail on the first wall tile. -/
def CanSeePosition (enemy : Enemy) (targetX targetY : Int)
    (map : List Char) (mapWidth : Int) : Bool :=
  let distance := ManhattanDistance enemy.x enemy.y targetX targetY
  if distance > enemy.sightRange then false
  else
    let dx := |targetX - enemy.x|
    let dy := |targetY - enemy.y|
    let sx : Int := if enemy.x < targetX then 1 else -1
    let sy : Int := if enemy.y < targetY then 1 else -1
    sightLoop map mapWidth targetX targetY sx sy dx dy (dx + dy).toNat
      enemy.x enemy.y (dx - dy)

/-- `UpdateEnemyPerception` from lesson 14: recompute `canSeePlayer` and,
when the player is visible, record the last seen position. -/
def UpdateEnemyPerception (enemy : Enemy) (player : Player)
    (map : List Char) (mapWidth : Int) : Enemy :=
  if CanSeePosition enemy player.x player.y map mapWidth then
    { enemy with canSeePlayer := true, lastSeenPlayerX := player.x,
                 lastSeenPlayerY := player.y }
  else
    { enemy with canSeePlayer := false }

lemma sightLoop_eq_all (map : List Char) (mapWidth : Int)
    (tx ty sx sy dx dy : Int) :
    ∀ (fuel : Nat) (x y err : Int),
      sightLoop map mapWidth tx ty sx sy dx dy fuel x y err =
        (bresPointsAux tx ty sx sy dx dy fuel x y err).all
          fun p => !(mapCharAt map mapWidth p.1 p.2 == '#') := by
  intro fuel
  induction fuel with
  | zero => intro x y err; simp [sightLoop, bresPointsAux]
  | succ n ih =>
    intro x y err
    by_cases htgt : x = tx ∧ y = ty
    · simp [sightLoop, bresPointsAux, htgt]
    · by_cases hwall : mapCharAt map mapWidth x y = '#'
      · simp [sightLoop, bresPointsAux, htgt, hwall]
      · simp only [sightLoop, bresPointsAux, if_neg htgt, if_neg hwall,
          List.all_cons]
        rw [ih]
        simp [hwall]

/-- `CanSeePosition` in closed form: visible exactly when the target is in
Manhattan range and no cell of the Bresenham segment (observer included,
target excluded) is a wall. -/
lemma canSeePosition_eq (enemy : Enemy) (targetX targetY : Int)
    (map : List Char) (mapWidth : Int) :
    CanSeePosition enemy targetX targetY map mapWidth =
      (decide (ManhattanDistance enemy.x enemy.y targetX targetY ≤
          enemy.sightRange) &&
        (bresLine enemy.x enemy.y targetX targetY).all
          fun p => !(mapCharAt map mapWidth p.1 p.2 == '#')) := by
  rw [CanSeePosition, bresLine]
  by_cases h : ManhattanDistance enemy.x enemy.y targetX targetY >
      enemy.sightRange
  · simp [h, not_le.mpr h]
  · simp only [if_neg h, sightLoop_eq_all]
    simp [not_lt.mp h]

lemma bresPointsAux_ne_target (tx ty sx sy dx dy : Int) :
    ∀ (fuel : Nat) (x y err : Int),
      ∀ p ∈ bresPointsAux tx ty sx sy dx dy fuel x y err, p ≠ (tx, ty) := by
  intro fuel
  induction fuel with
  | zero => intro x y err p hp; simp [bresPointsAux] at hp
  | succ n ih =>
    intro x y err p hp
    by_cases htgt : x = tx ∧ y = ty
    · simp [bresPointsAux, htgt] at hp
    · simp only [bresPointsAux, if_neg htgt, List.mem_cons] at hp
      rcases hp with rfl | hp
      · intro hcontra
        exact htgt (by simpa using hcontra)
      · exact ih _ _ _ p hp

lemma bresLine_self_mem (x0 y0 tx ty : Int)
    (h : ¬(x0 = tx ∧ y0 = ty)) :
    (x0, y0) ∈ bresLine x0 y0 tx ty := by
  have hpos : 0 < |tx - x0| + |ty - y0| := by
    rcases not_and_or.mp h with h' | h'
    · have : 0 < |tx - x0| := by
        rw [abs_pos, sub_ne_zero]
        exact fun hc => h' hc.symm
      have h2 : 0 ≤ |ty - y0| := abs_nonneg _
      omega
    · have : 0 < |ty - y0| := by
        rw [abs_pos, sub_ne_zero]
        exact fun hc => h' hc.symm
      have h2 : 0 ≤ |tx - x0| := abs_nonneg _
      omega
  rw [bresLine]
  rcases hn : (|tx - x0| + |ty - y0|).toNat with _ | n
  · omega
  · simp [bresPointsAux, h]

lemma bresLine_ne_target (x0 y0 tx ty : Int) :
    ∀ p ∈ bresLine x0 y0 tx ty, p ≠ (tx, ty) := by
  intro p hp
  rw [bresLine] at hp
  exact bresPointsAux_ne_target _ _ _ _ _ _ _ _ _ _ p hp

/-- The 5×5 open map of the spec's test scenarios. -/
def openMap5 : List Char := List.replicate 25 '.'

/-- The scenario-B map: the open 5×5 map with a wall at (2, 2). -/
def blockedMap5 : List Char := openMap5.set 12 '#'

/-- A concrete observer for the scenarios: position (0, 0), sight range
10. -/
def scoutA : Enemy :=
  ⟨0, 0, 'z', 30, 30, .ZOMBIE, .IDLE, 10, 3, false, 0, 0, 1, 0, 0, 10, 1, 0,
   1, 1, 1⟩

/-- A second concrete observer at (4, 4) with the same sight range. -/
def scoutB : Enemy :=
  ⟨4, 4, 'g', 15, 15, .GOBLIN, .IDLE, 10, 5, false, 0, 0, 2, 0, 0, 5, 1, 0,
   1, 1, 2⟩

/-- C2: `CanSeePosition` returns false whenever the Manhattan distance to
the target exceeds the sight range; within range it returns true exactly
when no cell of the Bresenham line from observer to target (stopping
before the target cell) is a SOLID `'#'` tile. On the open 5×5 map the
observer at (0, 0) with sight range 10 sees (4, 4); with a wall added at
(2, 2) it does not. -/
theorem canSeePosition_spec (enemy : Enemy) (targetX targetY : Int)
    (map : List Char) (mapWidth : Int) :
    (ManhattanDistance enemy.x enemy.y targetX targetY > enemy.sightRange →
      CanSeePosition enemy targetX targetY map mapWidth = false) ∧
    (ManhattanDistance enemy.x enemy.y targetX targetY ≤ enemy.sightRange →
      (CanSeePosition enemy targetX targetY map mapWidth = true ↔
        ∀ p ∈ bresLine enemy.x enemy.y targetX targetY,
          mapCharAt map mapWidth p.1 p.2 ≠ '#')) ∧
    CanSeePosition scoutA 4 4 openMap5 5 = true ∧
    CanSeePosition scoutA 4 4 blockedMap5 5 = false := by
  refine ⟨fun h => ?_, fun h => ?_, by decide, by decide⟩
  · simp [CanSeePosition, h]
  · rw [canSeePosition_eq]
    simp [not_lt.mpr, h, List.all_eq_true]

/-- Witness for C2: concrete instances of both general conjuncts, an
out-of-range target and an in-range target on the scenario-B map. -/
theorem canSeePosition_spec_witness :
    CanSeePosition scoutA 20 20 openMap5 5 = false ∧
    (CanSeePosition scoutA 4 4 blockedMap5 5 = true ↔
      ∀ p ∈ bresLine scoutA.x scoutA.y 4 4,
        mapCharAt blockedMap5 5 p.1 p.2 ≠ '#') :=
  ⟨(canSeePosition_spec scoutA 20 20 openMap5 5).1 (by decide),
   (canSeePosition_spec scoutA 4 4 blockedMap5 5).2.1 (by decide)⟩

/-- C6: when every cell of the discrete segment between two agents (each
direction's Bresenham rasterization) is free of SOLID tiles, visibility is
symmetric for agents sharing a sight range. -/
theorem canSeePosition_symmetric (map : List Char) (mapWidth : Int)
    (e1 e2 : Enemy) (hr : e1.sightRange = e2.sightRange)
    (h12 : ∀ p ∈ bresLine e1.x e1.y e2.x e2.y,
      mapCharAt map mapWidth p.1 p.2 ≠ '#')
    (h21 : ∀ p ∈ bresLine e2.x e2.y e1.x e1.y,
      mapCharAt map mapWidth p.1 p.2 ≠ '#') :
    CanSeePosition e1 e2.x e2.y map mapWidth =
      CanSeePosition e2 e1.x e1.y map mapWidth := by
  rw [canSeePosition_eq, canSeePosition_eq]
  have hall1 : (bresLine e1.x e1.y e2.x e2.y).all
      (fun p => !(mapCharAt map mapWidth p.1 p.2 == '#')) = true := by
    rw [List.all_eq_true]
    intro p hp
    simpa using h12 p hp
  have hall2 : (bresLine e2.x e2.y e1.x e1.y).all
      (fun p => !(mapCharAt map mapWidth p.1 p.2 == '#')) = true := by
    rw [List.all_eq_true]
    intro p hp
    simpa using h21 p hp
  have hdist : ManhattanDistance e1.x e1.y e2.x e2.y =
      ManhattanDistance e2.x e2.y e1.x e1.y := by
    unfold ManhattanDistance
    rw [abs_sub_comm, abs_sub_comm e1.y]
  rw [hall1, hall2, hdist, hr]

/-- Witness for C6: the two concrete scouts on the open 5×5 map. -/
theorem canSeePosition_symmetric_witness :
    CanSeePosition scoutA scoutB.x scoutB.y openMap5 5 =
      CanSeePosition scoutB scoutA.x scoutA.y openMap5 5 :=
  canSeePosition_symmetric openMap5 5 scoutA scoutB (by decide)
    (by decide) (by decide)

/-- C10: the occlusion scan of `CanSeePosition` tests exactly the
Bresenham cells from the observer up to but excluding the target: a SOLID
tile at the target cell never blocks an in-range target whose remaining
line is clear; an observer standing on a SOLID tile sees no cell other
than its own; and an observer with a nonnegative sight range (as every
enemy the lesson constructs has) always sees its own cell. -/
theorem canSeePosition_occlusion_scan (enemy : Enemy)
    (targetX targetY : Int) (map : List Char) (mapWidth : Int) :
    (ManhattanDistance enemy.x enemy.y targetX targetY ≤ enemy.sightRange →
      (∀ p ∈ bresLine enemy.x enemy.y targetX targetY,
        p ≠ (targetX, targetY) → mapCharAt map mapWidth p.1 p.2 ≠ '#') →
      CanSeePosition enemy targetX targetY map mapWidth = true) ∧
    (¬(enemy.x = targetX ∧ enemy.y = targetY) →
      mapCharAt map mapWidth enemy.x enemy.y = '#' →
      CanSeePosition enemy targetX targetY map mapWidth = false) ∧
    (0 ≤ enemy.sightRange →
      CanSeePosition enemy enemy.x enemy.y map mapWidth = true) := by
  refine ⟨fun hd hclear => ?_, fun hne hwall => ?_, fun hr => ?_⟩
  · rw [canSeePosition_eq]
    simp only [Bool.and_eq_true, decide_eq_true_eq, List.all_eq_true]
    refine ⟨hd, fun p hp => ?_⟩
    have := hclear p hp (bresLine_ne_target _ _ _ _ p hp)
    simpa using this
  · rw [Bool.eq_false_iff]
    intro htrue
    rw [canSeePosition_eq] at htrue
    simp only [Bool.and_eq_true, List.all_eq_true] at htrue
    have hmem := bresLine_self_mem enemy.x enemy.y targetX targetY hne
    have := htrue.2 _ hmem
    simp [hwall] at this
  · have h0 : ManhattanDistance enemy.x enemy.y enemy.x enemy.y = 0 := by
      simp [ManhattanDistance]
    rw [CanSeePosition]
    simp [h0, not_lt.mpr hr, sightLoop]

/-- Witness for C10: on a map whose only wall is the target cell (4, 4)
the scout sees the target; a scout standing on a wall at (0, 0) cannot see
(4, 4); and the scout sees its own cell. -/
theorem canSeePosition_occlusion_scan_witness :
    CanSeePosition scoutA 4 4 (openMap5.set 24 '#') 5 = true ∧
    CanSeePosition scoutA 4 4 (openMap5.set 0 '#') 5 = false ∧
    CanSeePosition scoutA scoutA.x scoutA.y openMap5 5 = true :=
  ⟨(canSeePosition_occlusion_scan scoutA 4 4 (openMap5.set 24 '#') 5).1
      (by decide) (by decide),
   (canSeePosition_occlusion_scan scoutA 4 4 (openMap5.set 0 '#') 5).2.1
      (by decide) (by decide),
   (canSeePosition_occlusion_scan scoutA scoutA.x scoutA.y openMap5 5).2.2
      (by decide)⟩

/-! ### The breadcrumb pathfinder of lesson 14 (`MoveWithBreadcrumbs`)

The C function allocates a `distanceMap` of `-1`s, seeds the target cell
with 0, and runs a flood fill: while some cell changed, every cell holding
the current distance `d` labels each in-bounds, unvisited, non-wall
4-neighbor with `d + 1`, then `d` is incremented. The writes of one pass
are order-independent (a pass only reads cells valued `d` and only writes
`d + 1` into cells valued `-1`), so one C pass equals the per-cell map
`floodRound`. The C `while (changed)` loop is embedded with fuel
`W * H + 1`, which is enough: each changing pass labels at least one new
cell (proved as part of the invariant below, making the out-of-fuel branch
unreachable). -/

/-- The four neighbor offsets, in the C scan order
`dx[] = {0, 0, -1, 1}; dy[] = {-1, 1, 0, 0}`. -/
def dirs : List (Int × Int) := [(0, -1), (0, 1), (-1, 0), (1, 0)]

/-- Flat index of `(x, y)` in a grid of width `W`, the C expression
`y * mapWidth + x` (callers establish `0 ≤ x < W`, `0 ≤ y < H`). -/
def gridIdx (W : Nat) (x y : Int) : Nat :=
  y.toNat * W + x.toNat

/-- Read the distance map at `(x, y)`: out-of-bounds cells read as `-1`
(unvisited), matching the bounds guards of the C loops. -/
def getCell (W H : Nat) (M : List Int) (x y : Int) : Int :=
  if 0 ≤ x ∧ x < (W : Int) ∧ 0 ≤ y ∧ y < (H : Int) then
    M.getD (gridIdx W x y) (-1)
  else -1

/-- One cell's view of one flood-fill pass at distance `d`: keep an
existing label, else take `d + 1` when the cell is a non-wall with some
4-neighbor labeled `d`, else stay unvisited. -/
def cellStep (map : List Char) (W H : Nat) (d : Nat) (M : List Int)
    (x y : Int) : Int :=
  let cur := getCell W H M x y
  if cur ≠ -1 then cur
  else if mapCharAt map (W : Int) x y ≠ '#' ∧
      (dirs.any fun p =>
        decide (getCell W H M (x + p.1) (y + p.2) = (d : Int))) = true then
    (d : Int) + 1
  else -1

/-- One full pass of the flood fill of `MoveWithBreadcrumbs`. -/
def floodRound (map : List Char) (W H : Nat) (d : Nat) (M : List Int) :
    List Int :=
  (List.range (W * H)).map fun i =>
    cellStep map W H d M ((i % W : Nat) : Int) ((i / W : Nat) : Int)

/-- The `while (changed)` loop of `MoveWithBreadcrumbs`, with fuel. -/
def floodLoop (map : List Char) (W H : Nat) :
    Nat → Nat → List Int → List Int
  | 0, _, M => M
  | fuel + 1, d, M =>
    let M' := floodRound map W H d M
    if M' = M then M else floodLoop map W H fuel (d + 1) M'

/-- The initial distance map: all `-1` except 0 at the seed. -/
def floodInit (W H : Nat) (sx sy : Int) : List Int :=
  (List.range (W * H)).map fun i => if i = gridIdx W sx sy then 0 else -1

/-- The whole distance-map computation of `MoveWithBreadcrumbs`, seeded at
the target `(sx, sy)`. -/
def floodFill (map : List Char) (W H : Nat) (sx sy : Int) : List Int :=
  floodLoop map W H (W * H + 1) 0 (floodInit W H sx sy)

/-- One iteration of the neighbor-selection loop at the end of
`MoveWithBreadcrumbs`: an in-bounds non-wall neighbor with a recorded
(nonnegative) distance below the best seen so far becomes the new best
`(bestX, bestY, bestDistance)`. -/
def breadcrumbStep (enemy : Enemy) (map : List Char)
    (mapWidth mapHeight : Nat) (distanceMap : List Int)
    (best : Int × Int × Int) (p : Int × Int) : Int × Int × Int :=
  let nx := enemy.x + p.1
  let ny := enemy.y + p.2
  if 0 ≤ nx ∧ nx < (mapWidth : Int) ∧ 0 ≤ ny ∧ ny < (mapHeight : Int) ∧
      mapCharAt map (mapWidth : Int) nx ny ≠ '#' then
    let dist := getCell mapWidth mapHeight distanceMap nx ny
    if 0 ≤ dist ∧ dist < best.2.2 then (nx, ny, dist) else best
  else best

def MoveWithBreadcrumbs (enemy : Enemy) (targetX targetY : Int)
    (map : List Char) (mapWidth mapHeight : Nat) : Enemy :=
  let distanceMap := floodFill map mapWidth mapHeight targetX targetY
  let best := dirs.foldl (breadcrumbStep enemy map mapWidth mapHeight
    distanceMap) (enemy.x, enemy.y, (2147483647 : Int))
  { enemy with x := best.1, y := best.2.1 }

/-- `MoveWithBreadcrumbs` from lesson 14 is `breadcrumbStep` folded over
the four directions after computing the distance field, with the scan
order up, down, left, right and `bestDistance` starting at C `INT_MAX`;
when no neighbor qualifies the enemy stays put. -/
lemma moveWithBreadcrumbs_def (enemy : Enemy) (targetX targetY : Int)
    (map : List Char) (mapWidth mapHeight : Nat) :
    MoveWithBreadcrumbs enemy targetX targetY map mapWidth mapHeight =
      { enemy with
        x := (dirs.foldl (breadcrumbStep enemy map mapWidth mapHeight
          (floodFill map mapWidth mapHeight targetX targetY))
          (enemy.x, enemy.y, (2147483647 : Int))).1,
        y := (dirs.foldl (breadcrumbStep enemy map mapWidth mapHeight
          (floodFill map mapWidth mapHeight targetX targetY))
          (enemy.x, enemy.y, (2147483647 : Int))).2.1 } := rfl

section FloodChecks

example : getCell 5 5 (floodFill openMap5 5 5 4 4) 0 0 = 8 := by decide

example :
    (MoveWithBreadcrumbs scoutA 4 4 openMap5 5 5).x = 0 ∧
    (MoveWithBreadcrumbs scoutA 4 4 openMap5 5 5).y = 1 := by decide

end FloodChecks

lemma length_floodRound (map : List Char) (W H d : Nat) (M : List Int) :
    (floodRound map W H d M).length = W * H := by
  simp [floodRound]

lemma length_floodInit (W H : Nat) (sx sy : Int) :
    (floodInit W H sx sy).length = W * H := by
  simp [floodInit]

lemma gridIdx_lt (W H : Nat) (x y : Int)
    (h : 0 ≤ x ∧ x < (W : Int) ∧ 0 ≤ y ∧ y < (H : Int)) :
    gridIdx W x y < W * H := by
  obtain ⟨hx, hx', hy, hy'⟩ := h
  have hxW : x.toNat < W := by omega
  have hyH : y.toNat < H := by omega
  calc y.toNat * W + x.toNat < y.toNat * W + W := by omega
    _ = (y.toNat + 1) * W := by ring
    _ ≤ H * W := Nat.mul_le_mul_right W hyH
    _ = W * H := Nat.mul_comm H W

lemma getD_floodRound (map : List Char) (W H d : Nat) (M : List Int)
    (n : Nat) (hn : n < W * H) :
    (floodRound map W H d M).getD n (-1) =
      cellStep map W H d M ((n % W : Nat) : Int) ((n / W : Nat) : Int) := by
  rw [floodRound, List.getD_eq_getElem?_getD, List.getElem?_map,
    List.getElem?_range hn]
  rfl

lemma getD_floodInit (W H : Nat) (sx sy : Int) (n : Nat) (hn : n < W * H) :
    (floodInit W H sx sy).getD n (-1) =
      if n = gridIdx W sx sy then 0 else -1 := by
  rw [floodInit, List.getD_eq_getElem?_getD, List.getElem?_map,
    List.getElem?_range hn]
  rfl

lemma coords_inb (W H n : Nat) (hn : n < W * H) :
    0 ≤ ((n % W : Nat) : Int) ∧ ((n % W : Nat) : Int) < (W : Int) ∧
    0 ≤ ((n / W : Nat) : Int) ∧ ((n / W : Nat) : Int) < (H : Int) := by
  have hW : 0 < W := by
    rcases Nat.eq_zero_or_pos W with h | h
    · subst h; simp at hn
    · exact h
  have h1 : n % W < W := Nat.mod_lt _ hW
  have hn' : n < H * W := by rwa [Nat.mul_comm] at hn
  have h2 : n / W < H := (Nat.div_lt_iff_lt_mul hW).mpr hn'
  refine ⟨Int.natCast_nonneg _, ?_, Int.natCast_nonneg _, ?_⟩
  · exact_mod_cast h1
  · exact_mod_cast h2

lemma gridIdx_coords (W H n : Nat) (_hn : n < W * H) :
    gridIdx W ((n % W : Nat) : Int) ((n / W : Nat) : Int) = n := by
  rw [gridIdx, Int.toNat_ofNat, Int.toNat_ofNat, Nat.mul_comm]
  exact Nat.div_add_mod n W

lemma coords_gridIdx (W H : Nat) (x y : Int)
    (h : 0 ≤ x ∧ x < (W : Int) ∧ 0 ≤ y ∧ y < (H : Int)) :
    ((gridIdx W x y % W : Nat) : Int) = x ∧
    ((gridIdx W x y / W : Nat) : Int) = y := by
  obtain ⟨hx, hx', hy, hy'⟩ := h
  have hxW : x.toNat < W := by omega
  have hW : 0 < W := by omega
  have hmod : gridIdx W x y % W = x.toNat := by
    rw [gridIdx, Nat.mul_comm, Nat.mul_add_mod, Nat.mod_eq_of_lt hxW]
  have hdiv : gridIdx W x y / W = y.toNat := by
    rw [gridIdx, Nat.mul_comm, Nat.mul_add_div hW, Nat.div_eq_of_lt hxW]
    omega
  rw [hmod, hdiv, Int.toNat_of_nonneg hx, Int.toNat_of_nonneg hy]
  exact ⟨rfl, rfl⟩

lemma getCell_coords (W H : Nat) (M : List Int) (n : Nat) (hn : n < W * H) :
    getCell W H M ((n % W : Nat) : Int) ((n / W : Nat) : Int) =
      M.getD n (-1) := by
  rw [getCell, if_pos (coords_inb W H n hn), gridIdx_coords W H n hn]

lemma getCell_oob (W H : Nat) (M : List Int) (x y : Int)
    (h : ¬(0 ≤ x ∧ x < (W : Int) ∧ 0 ≤ y ∧ y < (H : Int))) :
    getCell W H M x y = -1 := by
  rw [getCell, if_neg h]

lemma getCell_floodRound (map : List Char) (W H d : Nat) (M : List Int)
    (x y : Int) (h : 0 ≤ x ∧ x < (W : Int) ∧ 0 ≤ y ∧ y < (H : Int)) :
    getCell W H (floodRound map W H d M) x y = cellStep map W H d M x y := by
  rw [getCell, if_pos h,
    getD_floodRound map W H d M (gridIdx W x y) (gridIdx_lt W H x y h),
    (coords_gridIdx W H x y h).1, (coords_gridIdx W H x y h).2]

lemma cellStep_def (map : List Char) (W H d : Nat) (M : List Int)
    (x y : Int) :
    cellStep map W H d M x y =
      if getCell W H M x y ≠ -1 then getCell W H M x y
      else if mapCharAt map (W : Int) x y ≠ '#' ∧
          (dirs.any fun p =>
            decide (getCell W H M (x + p.1) (y + p.2) = (d : Int))) = true
        then (d : Int) + 1
      else -1 := rfl

lemma cellStep_of_visited (map : List Char) (W H d : Nat) (M : List Int)
    (x y : Int) (h : getCell W H M x y ≠ -1) :
    cellStep map W H d M x y = getCell W H M x y := by
  rw [cellStep_def, if_pos h]

lemma cellStep_values (map : List Char) (W H d : Nat) (M : List Int)
    (x y : Int) :
    cellStep map W H d M x y = getCell W H M x y ∨
      (getCell W H M x y = -1 ∧
        (cellStep map W H d M x y = -1 ∨
          cellStep map W H d M x y = (d : Int) + 1)) := by
  by_cases h : getCell W H M x y = -1
  · rw [cellStep_def, if_neg (fun hh => hh h)]
    by_cases h2 : mapCharAt map (W : Int) x y ≠ '#' ∧
        (dirs.any fun p =>
          decide (getCell W H M (x + p.1) (y + p.2) = (d : Int))) = true
    · exact Or.inr ⟨h, Or.inr (if_pos h2)⟩
    · exact Or.inr ⟨h, Or.inl (if_neg h2)⟩
  · exact Or.inl (cellStep_of_visited map W H d M x y h)

lemma cellStep_label (map : List Char) (W H d : Nat) (M : List Int)
    (x y : Int) (h : getCell W H M x y = -1)
    (hw : mapCharAt map (W : Int) x y ≠ '#')
    (hnb : ∃ p ∈ dirs, getCell W H M (x + p.1) (y + p.2) = (d : Int)) :
    cellStep map W H d M x y = (d : Int) + 1 := by
  obtain ⟨p, hp, hpd⟩ := hnb
  have hany : (dirs.any fun p =>
      decide (getCell W H M (x + p.1) (y + p.2) = (d : Int))) = true := by
    rw [List.any_eq_true]
    exact ⟨p, hp, by simp [hpd]⟩
  rw [cellStep_def, if_neg (fun hh => hh h), if_pos ⟨hw, hany⟩]

lemma getCell_floodRound_visited (map : List Char) (W H d : Nat)
    (M : List Int) (x y : Int) (h : getCell W H M x y ≠ -1) :
    getCell W H (floodRound map W H d M) x y = getCell W H M x y := by
  by_cases hin : 0 ≤ x ∧ x < (W : Int) ∧ 0 ≤ y ∧ y < (H : Int)
  · rw [getCell_floodRound map W H d M x y hin]
    exact cellStep_of_visited map W H d M x y h
  · exact absurd (getCell_oob W H M x y hin) h

lemma getCell_floodRound_or (map : List Char) (W H d : Nat) (M : List Int)
    (x y : Int) :
    getCell W H (floodRound map W H d M) x y = getCell W H M x y ∨
      (getCell W H M x y = -1 ∧
        (getCell W H (floodRound map W H d M) x y = -1 ∨
          getCell W H (floodRound map W H d M) x y = (d : Int) + 1)) := by
  by_cases hin : 0 ≤ x ∧ x < (W : Int) ∧ 0 ≤ y ∧ y < (H : Int)
  · rw [getCell_floodRound map W H d M x y hin]
    exact cellStep_values map W H d M x y
  · rw [getCell_oob W H _ x y hin, getCell_oob W H M x y hin]
    exact Or.inl rfl

lemma getCell_floodRound_label (map : List Char) (W H d : Nat)
    (M : List Int) (x y : Int)
    (hin : 0 ≤ x ∧ x < (W : Int) ∧ 0 ≤ y ∧ y < (H : Int))
    (h : getCell W H M x y = -1)
    (hw : mapCharAt map (W : Int) x y ≠ '#')
    (hnb : ∃ p ∈ dirs, getCell W H M (x + p.1) (y + p.2) = (d : Int)) :
    getCell W H (floodRound map W H d M) x y = (d : Int) + 1 := by
  rw [getCell_floodRound map W H d M x y hin]
  exact cellStep_label map W H d M x y h hw hnb

/-- The set of labeled (visited) indices of a distance map. -/
def labeledCells (W H : Nat) (M : List Int) : Finset (Fin (W * H)) :=
  Finset.univ.filter fun i => 0 ≤ M.getD i.val (-1)

lemma labeledCells_subset (map : List Char) (W H d : Nat) (M : List Int) :
    labeledCells W H M ⊆ labeledCells W H (floodRound map W H d M) := by
  intro i hi
  rw [labeledCells, Finset.mem_filter] at hi ⊢
  refine ⟨Finset.mem_univ _, ?_⟩
  rw [getD_floodRound map W H d M i.val i.isLt,
    cellStep_of_visited map W H d M _ _ ?_, getCell_coords W H M i.val i.isLt]
  · exact hi.2
  · rw [getCell_coords W H M i.val i.isLt]
    omega

lemma exists_new_label (map : List Char) (W H d : Nat) (M : List Int)
    (hlen : M.length = W * H) (hne : floodRound map W H d M ≠ M) :
    ∃ n : Fin (W * H), M.getD n.val (-1) = -1 ∧
      (floodRound map W H d M).getD n.val (-1) = (d : Int) + 1 := by
  have hex : ∃ n : Nat, (floodRound map W H d M)[n]? ≠ M[n]? := by
    by_contra hall
    push_neg at hall
    exact hne (List.ext_getElem? hall)
  obtain ⟨n, hn⟩ := hex
  have hlt : n < W * H := by
    by_contra hge
    push_neg at hge
    have h1 : (floodRound map W H d M)[n]? = none := by
      rw [List.getElem?_eq_none]
      rw [length_floodRound]
      exact hge
    have h2 : M[n]? = none := by
      rw [List.getElem?_eq_none]
      omega
    rw [h1, h2] at hn
    exact hn rfl
  have hgd : (floodRound map W H d M).getD n (-1) ≠ M.getD n (-1) := by
    intro hcontra
    apply hn
    have hs1 : (floodRound map W H d M)[n]? =
        some ((floodRound map W H d M).getD n (-1)) := by
      rw [List.getD_eq_getElem?_getD]
      rcases h : (floodRound map W H d M)[n]? with _ | v
      · rw [List.getElem?_eq_none_iff] at h
        rw [length_floodRound] at h
        omega
      · rfl
    have hs2 : M[n]? = some (M.getD n (-1)) := by
      rw [List.getD_eq_getElem?_getD]
      rcases h : M[n]? with _ | v
      · rw [List.getElem?_eq_none_iff] at h
        omega
      · rfl
    rw [hs1, hs2, hcontra]
  rw [getD_floodRound map W H d M n hlt] at hgd
  rw [← getCell_coords W H M n hlt] at hgd
  rcases cellStep_values map W H d M ((n % W : Nat) : Int)
      ((n / W : Nat) : Int) with hv | ⟨hm1, hv⟩
  · exact absurd hv hgd
  · rcases hv with hv | hv
    · rw [hv] at hgd
      exact absurd hm1.symm hgd
    · refine ⟨⟨n, hlt⟩, ?_, ?_⟩
      · rw [← getCell_coords W H M n hlt]
        exact hm1
      · rw [getD_floodRound map W H d M n hlt]
        exact hv

lemma card_labeled_lt (map : List Char) (W H d : Nat) (M : List Int)
    (hlen : M.length = W * H) (hne : floodRound map W H d M ≠ M) :
    (labeledCells W H M).card <
      (labeledCells W H (floodRound map W H d M)).card := by
  obtain ⟨n, hold, hnew⟩ := exists_new_label map W H d M hlen hne
  apply Finset.card_lt_card
  constructor
  · exact labeledCells_subset map W H d M
  · intro hsub
    have hmem : n ∈ labeledCells W H (floodRound map W H d M) := by
      rw [labeledCells, Finset.mem_filter]
      refine ⟨Finset.mem_univ _, ?_⟩
      rw [hnew]
      omega
    have := hsub hmem
    rw [labeledCells, Finset.mem_filter, hold] at this
    omega

lemma dirs_neg_mem : ∀ p ∈ dirs, (-p.1, -p.2) ∈ dirs := by decide

/-- Loop invariant of the flood fill on entry to the pass for distance
`d`: the map has grid size; the seed holds 0; all labels are at most `d`
and at least `-1`; every walkable in-bounds neighbor of a cell labeled
below `d` is labeled, with a value at most one larger; and at least
`d + 1` cells are labeled (so the fuel `W * H + 1` cannot run out). -/
def FloodInv (map : List Char) (W H : Nat) (sx sy : Int) (d : Nat)
    (M : List Int) : Prop :=
  M.length = W * H ∧
  getCell W H M sx sy = 0 ∧
  (∀ x y : Int, getCell W H M x y ≤ (d : Int)) ∧
  (∀ x y : Int, -1 ≤ getCell W H M x y) ∧
  (∀ x y : Int, 0 ≤ getCell W H M x y → getCell W H M x y < (d : Int) →
    ∀ p ∈ dirs,
      (0 ≤ x + p.1 ∧ x + p.1 < (W : Int) ∧ 0 ≤ y + p.2 ∧
        y + p.2 < (H : Int)) →
      mapCharAt map (W : Int) (x + p.1) (y + p.2) ≠ '#' →
      0 ≤ getCell W H M (x + p.1) (y + p.2) ∧
        getCell W H M (x + p.1) (y + p.2) ≤ getCell W H M x y + 1) ∧
  d + 1 ≤ (labeledCells W H M).card

/-- What holds of the finished distance map: the seed reads 0, and every
walkable in-bounds neighbor of a labeled cell is labeled with a value at
most one larger. -/
def FloodDone (map : List Char) (W H : Nat) (sx sy : Int) (M : List Int) :
    Prop :=
  getCell W H M sx sy = 0 ∧
  ∀ x y : Int, 0 ≤ getCell W H M x y →
    ∀ p ∈ dirs,
      (0 ≤ x + p.1 ∧ x + p.1 < (W : Int) ∧ 0 ≤ y + p.2 ∧
        y + p.2 < (H : Int)) →
      mapCharAt map (W : Int) (x + p.1) (y + p.2) ≠ '#' →
      0 ≤ getCell W H M (x + p.1) (y + p.2) ∧
        getCell W H M (x + p.1) (y + p.2) ≤ getCell W H M x y + 1

lemma neighbor_back_label (_map : List Char) (W H d : Nat) (M : List Int)
    (x y : Int) (p : Int × Int) (hp : p ∈ dirs)
    (hd : getCell W H M x y = (d : Int)) :
    ∃ q ∈ dirs,
      getCell W H M (x + p.1 + q.1) (y + p.2 + q.2) = (d : Int) := by
  refine ⟨(-p.1, -p.2), dirs_neg_mem p hp, ?_⟩
  have hxx : x + p.1 + (-p.1, -p.2).1 = x := by simp
  have hyy : y + p.2 + (-p.1, -p.2).2 = y := by simp
  rw [hxx, hyy]
  exact hd

lemma floodInv_step (map : List Char) (W H : Nat) (sx sy : Int) (d : Nat)
    (M : List Int) (hinv : FloodInv map W H sx sy d M)
    (hne : floodRound map W H d M ≠ M) :
    FloodInv map W H sx sy (d + 1) (floodRound map W H d M) := by
  obtain ⟨hlen, hseed, hub, hlb, hlip, hcnt⟩ := hinv
  refine ⟨length_floodRound map W H d M, ?_, ?_, ?_, ?_, ?_⟩
  · rw [getCell_floodRound_visited map W H d M sx sy (by omega)]
    exact hseed
  · intro x y
    have hu := hub x y
    rcases getCell_floodRound_or map W H d M x y with h | ⟨h0, h | h⟩
    · rw [h]
      push_cast at hu ⊢
      omega
    · rw [h]
      push_cast
      omega
    · rw [h]
      push_cast
      omega
  · intro x y
    rcases getCell_floodRound_or map W H d M x y with h | ⟨h0, h | h⟩
    · rw [h]
      exact hlb x y
    · rw [h]
    · rw [h]
      omega
  · intro x y hpos hlt p hp hinb hw
    rcases getCell_floodRound_or map W H d M x y with hxy | ⟨hxy0, hxy⟩
    · rw [hxy] at hpos hlt ⊢
      by_cases hcase : getCell W H M x y < (d : Int)
      · have hres := hlip x y hpos hcase p hp hinb hw
        have hvnb : getCell W H M (x + p.1) (y + p.2) ≠ -1 := by omega
        rw [getCell_floodRound_visited map W H d M _ _ hvnb]
        exact hres
      · have hd : getCell W H M x y = (d : Int) := by
          have := hub x y
          omega
        by_cases hum : getCell W H M (x + p.1) (y + p.2) = -1
        · have hlab := getCell_floodRound_label map W H d M (x + p.1)
            (y + p.2) hinb hum hw
            (neighbor_back_label map W H d M x y p hp hd)
          rw [hlab]
          constructor
          · positivity
          · rw [hd]
        · rw [getCell_floodRound_visited map W H d M _ _ hum]
          have h1 := hlb (x + p.1) (y + p.2)
          have h2 := hub (x + p.1) (y + p.2)
          rw [hd]
          omega
    · exfalso
      rcases hxy with hxy | hxy
      · rw [hxy] at hpos
        omega
      · rw [hxy] at hlt
        push_cast at hlt
        omega
  · have := card_labeled_lt map W H d M hlen hne
    omega

lemma floodInv_done (map : List Char) (W H : Nat) (sx sy : Int) (d : Nat)
    (M : List Int) (hinv : FloodInv map W H sx sy d M)
    (hfix : floodRound map W H d M = M) :
    FloodDone map W H sx sy M := by
  obtain ⟨hlen, hseed, hub, hlb, hlip, hcnt⟩ := hinv
  refine ⟨hseed, ?_⟩
  intro x y hpos p hp hinb hw
  by_cases hcase : getCell W H M x y < (d : Int)
  · exact hlip x y hpos hcase p hp hinb hw
  · have hd : getCell W H M x y = (d : Int) := by
      have := hub x y
      omega
    by_cases hum : getCell W H M (x + p.1) (y + p.2) = -1
    · exfalso
      have hlab := getCell_floodRound_label map W H d M (x + p.1) (y + p.2)
        hinb hum hw (neighbor_back_label map W H d M x y p hp hd)
      rw [hfix, hum] at hlab
      omega
    · have h1 := hlb (x + p.1) (y + p.2)
      have h2 := hub (x + p.1) (y + p.2)
      rw [hd]
      omega

lemma floodLoop_done (map : List Char) (W H : Nat) (sx sy : Int) :
    ∀ (fuel d : Nat) (M : List Int), FloodInv map W H sx sy d M →
      fuel + d = W * H + 1 →
      FloodDone map W H sx sy (floodLoop map W H fuel d M) := by
  intro fuel
  induction fuel with
  | zero =>
    intro d M hinv hsum
    exfalso
    have hcard : (labeledCells W H M).card ≤ W * H := by
      calc (labeledCells W H M).card ≤ Finset.univ.card :=
            Finset.card_filter_le _ _
        _ = W * H := by rw [Finset.card_univ, Fintype.card_fin]
    have := hinv.2.2.2.2.2
    omega
  | succ n ih =>
    intro d M hinv hsum
    rw [floodLoop]
    by_cases hf : floodRound map W H d M = M
    · rw [if_pos hf]
      exact floodInv_done map W H sx sy d M hinv hf
    · rw [if_neg hf]
      exact ih (d + 1) _ (floodInv_step map W H sx sy d M hinv hf)
        (by omega)

lemma floodInv_init (map : List Char) (W H : Nat) (sx sy : Int)
    (hs : 0 ≤ sx ∧ sx < (W : Int) ∧ 0 ≤ sy ∧ sy < (H : Int)) :
    FloodInv map W H sx sy 0 (floodInit W H sx sy) := by
  have hslt := gridIdx_lt W H sx sy hs
  refine ⟨length_floodInit W H sx sy, ?_, ?_, ?_, ?_, ?_⟩
  · rw [getCell, if_pos hs, getD_floodInit W H sx sy _ hslt, if_pos rfl]
  · intro x y
    by_cases hin : 0 ≤ x ∧ x < (W : Int) ∧ 0 ≤ y ∧ y < (H : Int)
    · rw [getCell, if_pos hin,
        getD_floodInit W H sx sy _ (gridIdx_lt W H x y hin)]
      split <;> omega
    · rw [getCell_oob W H _ x y hin]
      omega
  · intro x y
    by_cases hin : 0 ≤ x ∧ x < (W : Int) ∧ 0 ≤ y ∧ y < (H : Int)
    · rw [getCell, if_pos hin,
        getD_floodInit W H sx sy _ (gridIdx_lt W H x y hin)]
      split <;> omega
    · rw [getCell_oob W H _ x y hin]
  · intro x y hpos hlt
    exfalso
    push_cast at hlt
    omega
  · have hmem : (⟨gridIdx W sx sy, hslt⟩ : Fin (W * H)) ∈
        labeledCells W H (floodInit W H sx sy) := by
      rw [labeledCells, Finset.mem_filter]
      refine ⟨Finset.mem_univ _, ?_⟩
      rw [getD_floodInit W H sx sy _ hslt]
      simp
    have := Finset.card_pos.mpr ⟨_, hmem⟩
    omega

/-- The distance map computed by `MoveWithBreadcrumbs` satisfies the
finished-field properties whenever the seed is in bounds. -/
theorem floodFill_done (map : List Char) (W H : Nat) (sx sy : Int)
    (hs : 0 ≤ sx ∧ sx < (W : Int) ∧ 0 ≤ sy ∧ sy < (H : Int)) :
    FloodDone map W H sx sy (floodFill map W H sx sy) := by
  rw [floodFill]
  exact floodLoop_done map W H sx sy (W * H + 1) 0 _
    (floodInv_init map W H sx sy hs) (by omega)

lemma flood_path_bound (map : List Char) (W H : Nat) (sx sy : Int)
    (hs : 0 ≤ sx ∧ sx < (W : Int) ∧ 0 ≤ sy ∧ sy < (H : Int))
    (l : List (Int × Int))
    (hchain : l.Chain' fun a b => (b.1 - a.1, b.2 - a.2) ∈ dirs)
    (hcells : ∀ q ∈ l,
      (0 ≤ q.1 ∧ q.1 < (W : Int) ∧ 0 ≤ q.2 ∧ q.2 < (H : Int)) ∧
        mapCharAt map (W : Int) q.1 q.2 ≠ '#')
    (hhead : l.head? = some (sx, sy)) :
    ∀ (k : Nat) (hk : k < l.length),
      0 ≤ getCell W H (floodFill map W H sx sy)
          (l.get ⟨k, hk⟩).1 (l.get ⟨k, hk⟩).2 ∧
        getCell W H (floodFill map W H sx sy)
          (l.get ⟨k, hk⟩).1 (l.get ⟨k, hk⟩).2 ≤ (k : Int) := by
  obtain ⟨hseed, hlip⟩ := floodFill_done map W H sx sy hs
  intro k
  induction k with
  | zero =>
    intro hk
    rcases l with _ | ⟨a, t⟩
    · simp at hk
    · have ha : a = (sx, sy) := by
        simpa using hhead
      subst ha
      simp only [List.get]
      rw [hseed]
      exact ⟨le_refl _, by omega⟩
  | succ k ih =>
    intro hk
    have hk' : k < l.length := by omega
    obtain ⟨ihpos, ihle⟩ := ih hk'
    have hadj := List.chain'_iff_get.mp hchain k (by omega)
    have hbmem : l.get ⟨k + 1, hk⟩ ∈ l := l.get_mem (k + 1) hk
    have ha1 : (l.get ⟨k, hk'⟩).1 +
        ((l.get ⟨k + 1, hk⟩).1 - (l.get ⟨k, hk'⟩).1) =
        (l.get ⟨k + 1, hk⟩).1 := by ring
    have ha2 : (l.get ⟨k, hk'⟩).2 +
        ((l.get ⟨k + 1, hk⟩).2 - (l.get ⟨k, hk'⟩).2) =
        (l.get ⟨k + 1, hk⟩).2 := by ring
    have hres := hlip (l.get ⟨k, hk'⟩).1 (l.get ⟨k, hk'⟩).2 ihpos
      ((l.get ⟨k + 1, hk⟩).1 - (l.get ⟨k, hk'⟩).1,
       (l.get ⟨k + 1, hk⟩).2 - (l.get ⟨k, hk'⟩).2) hadj
      (by
        obtain ⟨⟨c1, c2, c3, c4⟩, _⟩ := hcells _ hbmem
        refine ⟨by omega, by omega, by omega, by omega⟩)
      (by
        rw [ha1, ha2]
        exact (hcells _ hbmem).2)
    rw [ha1, ha2] at hres
    refine ⟨hres.1, le_trans hres.2 ?_⟩
    push_cast
    omega

/-- C3: the flood-fill distance field of `MoveWithBreadcrumbs` records 0
at its seed; every walkable in-bounds 4-neighbor of a labeled cell is
labeled with a value at most one larger (newly visited neighbors get
`parentDistance + 1`), so along any 4-connected walkable path leaving the
seed the recorded value at step `k` is at most `k`; and seeded at (4, 4)
on the open 5×5 map the distance recorded at (0, 0) is 8. -/
theorem floodFill_distance_field (map : List Char) (W H : Nat)
    (sx sy : Int)
    (hs : 0 ≤ sx ∧ sx < (W : Int) ∧ 0 ≤ sy ∧ sy < (H : Int)) :
    getCell W H (floodFill map W H sx sy) sx sy = 0 ∧
    (∀ x y : Int, 0 ≤ getCell W H (floodFill map W H sx sy) x y →
      ∀ p ∈ dirs,
        (0 ≤ x + p.1 ∧ x + p.1 < (W : Int) ∧ 0 ≤ y + p.2 ∧
          y + p.2 < (H : Int)) →
        mapCharAt map (W : Int) (x + p.1) (y + p.2) ≠ '#' →
        0 ≤ getCell W H (floodFill map W H sx sy) (x + p.1) (y + p.2) ∧
          getCell W H (floodFill map W H sx sy) (x + p.1) (y + p.2) ≤
            getCell W H (floodFill map W H sx sy) x y + 1) ∧
    (∀ l : List (Int × Int),
      l.Chain' (fun a b => (b.1 - a.1, b.2 - a.2) ∈ dirs) →
      (∀ q ∈ l,
        (0 ≤ q.1 ∧ q.1 < (W : Int) ∧ 0 ≤ q.2 ∧ q.2 < (H : Int)) ∧
          mapCharAt map (W : Int) q.1 q.2 ≠ '#') →
      l.head? = some (sx, sy) →
      ∀ (k : Nat) (hk : k < l.length),
        0 ≤ getCell W H (floodFill map W H sx sy)
            (l.get ⟨k, hk⟩).1 (l.get ⟨k, hk⟩).2 ∧
          getCell W H (floodFill map W H sx sy)
            (l.get ⟨k, hk⟩).1 (l.get ⟨k, hk⟩).2 ≤ (k : Int)) ∧
    getCell 5 5 (floodFill openMap5 5 5 4 4) 0 0 = 8 :=
  ⟨(floodFill_done map W H sx sy hs).1, (floodFill_done map W H sx sy hs).2,
   fun l hchain hcells hhead =>
     flood_path_bound map W H sx sy hs l hchain hcells hhead,
   by decide⟩

/-- Witness for C3: the open 5×5 map seeded at (4, 4) — the seed reads 0,
the neighbor (3, 4) of the seed is labeled at most 1, and the far corner
(0, 0) reads 8. -/
theorem floodFill_distance_field_witness :
    getCell 5 5 (floodFill openMap5 5 5 4 4) 4 4 = 0 ∧
    (0 ≤ getCell 5 5 (floodFill openMap5 5 5 4 4) 3 4 ∧
      getCell 5 5 (floodFill openMap5 5 5 4 4) 3 4 ≤
        getCell 5 5 (floodFill openMap5 5 5 4 4) 4 4 + 1) ∧
    getCell 5 5 (floodFill openMap5 5 5 4 4) 0 0 = 8 := by
  refine ⟨(floodFill_distance_field openMap5 5 5 4 4 (by decide)).1, ?_, ?_⟩
  · have h := (floodFill_distance_field openMap5 5 5 4 4 (by decide)).2.1
      4 4 ?_ (-1, 0) (by decide) (by decide) (by decide)
    · convert h using 3
    · rw [(floodFill_distance_field openMap5 5 5 4 4 (by decide)).1]
  · exact (floodFill_distance_field openMap5 5 5 4 4 (by decide)).2.2.2

lemma breadcrumbStep_def (enemy : Enemy) (map : List Char)
    (mapWidth mapHeight : Nat) (distanceMap : List Int)
    (best : Int × Int × Int) (p : Int × Int) :
    breadcrumbStep enemy map mapWidth mapHeight distanceMap best p =
      if 0 ≤ enemy.x + p.1 ∧ enemy.x + p.1 < (mapWidth : Int) ∧
          0 ≤ enemy.y + p.2 ∧ enemy.y + p.2 < (mapHeight : Int) ∧
          mapCharAt map (mapWidth : Int) (enemy.x + p.1)
            (enemy.y + p.2) ≠ '#' then
        if 0 ≤ getCell mapWidth mapHeight distanceMap (enemy.x + p.1)
              (enemy.y + p.2) ∧
            getCell mapWidth mapHeight distanceMap (enemy.x + p.1)
              (enemy.y + p.2) < best.2.2 then
          (enemy.x + p.1, enemy.y + p.2,
            getCell mapWidth mapHeight distanceMap (enemy.x + p.1)
              (enemy.y + p.2))
        else best
      else best := rfl

lemma breadcrumbStep_skip (enemy : Enemy) (map : List Char)
    (mapWidth mapHeight : Nat) (distanceMap : List Int)
    (best : Int × Int × Int) (p : Int × Int)
    (h : ¬(0 ≤ enemy.x + p.1 ∧ enemy.x + p.1 < (mapWidth : Int) ∧
      0 ≤ enemy.y + p.2 ∧ enemy.y + p.2 < (mapHeight : Int) ∧
      mapCharAt map (mapWidth : Int) (enemy.x + p.1) (enemy.y + p.2) ≠ '#' ∧
      0 ≤ getCell mapWidth mapHeight distanceMap (enemy.x + p.1)
        (enemy.y + p.2))) :
    breadcrumbStep enemy map mapWidth mapHeight distanceMap best p =
      best := by
  rw [breadcrumbStep_def]
  by_cases h1 : 0 ≤ enemy.x + p.1 ∧ enemy.x + p.1 < (mapWidth : Int) ∧
      0 ≤ enemy.y + p.2 ∧ enemy.y + p.2 < (mapHeight : Int) ∧
      mapCharAt map (mapWidth : Int) (enemy.x + p.1) (enemy.y + p.2) ≠ '#'
  · rw [if_pos h1, if_neg]
    intro hc
    exact h ⟨h1.1, h1.2.1, h1.2.2.1, h1.2.2.2.1, h1.2.2.2.2, hc.1⟩
  · rw [if_neg h1]

lemma foldl_fixed {α β : Type} (f : α → β → α) :
    ∀ (l : List β) (b : α), (∀ p ∈ l, ∀ a, f a p = a) → l.foldl f b = b
  | [], _, _ => rfl
  | p :: rest, b, h => by
    rw [List.foldl_cons, h p (List.mem_cons_self p rest) b]
    exact foldl_fixed f rest b fun q hq => h q (List.mem_cons_of_mem p hq)

/-- C9: when no 4-neighbor of the enemy is an in-bounds walkable cell with
a recorded (nonnegative) distance in the field computed from the target,
the neighbor-selection loop of `MoveWithBreadcrumbs` never updates its
best cell, so the enemy stays exactly where it was — the code's "no path"
outcome. -/
theorem moveWithBreadcrumbs_no_path (enemy : Enemy) (targetX targetY : Int)
    (map : List Char) (mapWidth mapHeight : Nat)
    (h : ∀ p ∈ dirs, ¬(0 ≤ enemy.x + p.1 ∧
      enemy.x + p.1 < (mapWidth : Int) ∧ 0 ≤ enemy.y + p.2 ∧
      enemy.y + p.2 < (mapHeight : Int) ∧
      mapCharAt map (mapWidth : Int) (enemy.x + p.1) (enemy.y + p.2) ≠ '#' ∧
      0 ≤ getCell mapWidth mapHeight
        (floodFill map mapWidth mapHeight targetX targetY)
        (enemy.x + p.1) (enemy.y + p.2))) :
    (MoveWithBreadcrumbs enemy targetX targetY map mapWidth mapHeight).x =
      enemy.x ∧
    (MoveWithBreadcrumbs enemy targetX targetY map mapWidth mapHeight).y =
      enemy.y := by
  rw [moveWithBreadcrumbs_def,
    foldl_fixed _ dirs _ fun p hp b =>
      breadcrumbStep_skip enemy map mapWidth mapHeight _ b p (h p hp)]
  exact ⟨rfl, rfl⟩

/-- A 3×3 map whose center is the only open cell. -/
def wallRing : List Char :=
  ['#', '#', '#', '#', '.', '#', '#', '#', '#']

/-- Witness for C9: an enemy boxed in at the center of `wallRing` does not
move. -/
theorem moveWithBreadcrumbs_no_path_witness :
    (MoveWithBreadcrumbs ⟨1, 1, 'z', 30, 30, .ZOMBIE, .CHASE, 10, 3, false,
        0, 0, 1, 0, 0, 10, 1, 0, 1, 1, 7⟩ 0 0 wallRing 3 3).x = 1 ∧
    (MoveWithBreadcrumbs ⟨1, 1, 'z', 30, 30, .ZOMBIE, .CHASE, 10, 3, false,
        0, 0, 1, 0, 0, 10, 1, 0, 1, 1, 7⟩ 0 0 wallRing 3 3).y = 1 :=
  moveWithBreadcrumbs_no_path _ 0 0 wallRing 3 3 (by decide)

/-! ### The behavior state machine and the per-frame update of lesson 14 -/

/-- Modelled from the spec: the four-argument
`CanMoveTo(map, mapWidth, x, y)` that `MoveTowardsTarget` calls has no
definition anywhere in the source material. Per spec §4.1 the map edge
classifies as SOLID (a wall) and otherwise the collision layer is
consulted, SOLID being `'#'` on the lesson-14 character maps; a move is
legal exactly when the destination tile is not SOLID. -/
def CanMoveToTile (map : List Char) (mapWidth mapHeight : Nat)
    (x y : Int) : Bool :=
  decide (0 ≤ x) && decide (x < (mapWidth : Int)) && decide (0 ≤ y) &&
    decide (y < (mapHeight : Int)) &&
    decide (mapCharAt map (mapWidth : Int) x y ≠ '#')

/-- `MoveTowardsTarget` from lesson 14: step one tile toward the target,
trying the axis with the greater distance first and falling back to the
other axis when blocked. -/
def MoveTowardsTarget (enemy : Enemy) (targetX targetY : Int)
    (map : List Char) (mapWidth mapHeight : Nat) : Enemy :=
  let dx := targetX - enemy.x
  let dy := targetY - enemy.y
  if |dx| > |dy| then
    let moveX : Int := if dx > 0 then 1 else -1
    if CanMoveToTile map mapWidth mapHeight (enemy.x + moveX) enemy.y then
      { enemy with x := enemy.x + moveX }
    else
      let moveY : Int := if dy > 0 then 1 else -1
      if CanMoveToTile map mapWidth mapHeight enemy.x (enemy.y + moveY) then
        { enemy with y := enemy.y + moveY }
      else enemy
  else
    let moveY : Int := if dy > 0 then 1 else -1
    if CanMoveToTile map mapWidth mapHeight enemy.x (enemy.y + moveY) then
      { enemy with y := enemy.y + moveY }
    else
      let moveX : Int := if dx > 0 then 1 else -1
      if CanMoveToTile map mapWidth mapHeight (enemy.x + moveX) enemy.y then
        { enemy with x := enemy.x + moveX }
      else enemy

/-- `UpdateIdleState` from lesson 14. The C float comparisons
`courage < 0.3f` and `aggression > 0.7f` are embedded over `ℚ`; the C
`rand() % 1000 < 5` patrol roll takes the drawn value as an argument. A
cowardly enemy close to a visible player flees (checked first), an
aggressive one chases, a guard merely keeps watching, and otherwise the
patrol roll applies. -/
def UpdateIdleState (enemy : Enemy) (player : Player) (randVal : Nat) :
    Enemy :=
  if enemy.canSeePlayer then
    let distanceToPlayer :=
      ManhattanDistance enemy.x enemy.y player.x player.y
    if enemy.courage < 3/10 ∧ distanceToPlayer < 5 then
      { enemy with state := .FLEE }
    else if enemy.aggression > 7/10 then
      { enemy with state := .CHASE }
    else if randVal % 1000 < 5 then { enemy with state := .PATROL }
    else enemy
  else if randVal % 1000 < 5 then { enemy with state := .PATROL }
  else enemy

/-- `UpdateChaseState` from lesson 14: advance the movement timer, fall
back to SEARCH when sight is lost, switch to ATTACK when adjacent, and
otherwise step toward the player when the movement timer allows. -/
def UpdateChaseState (enemy : Enemy) (player : Player) (map : List Char)
    (mapWidth mapHeight : Nat) (deltaTime : ℚ) : Enemy :=
  let e1 := { enemy with timeSinceMove := enemy.timeSinceMove + deltaTime }
  if e1.canSeePlayer = false then { e1 with state := .SEARCH }
  else
    let distance := ManhattanDistance e1.x e1.y player.x player.y
    if distance ≤ 1 then { e1 with state := .ATTACK }
    else if e1.timeSinceMove ≥ 1 / e1.moveSpeed then
      { MoveTowardsTarget e1 player.x player.y map mapWidth mapHeight with
          timeSinceMove := 0 }
    else e1

/-- Modelled from the spec: `UpdatePatrolState`, `UpdateFleeState`,
`UpdateAttackState` and `UpdateSearchState` are left as exercises in the
source material (no definition exists under the sources), so the
dispatcher is parametrized by them; every theorem below holds for all
implementations. Signatures follow the C call sites. -/
structure StateHandlers where
  patrol : Enemy → Player → List Char → Int → ℚ → Enemy
  flee : Enemy → Player → List Char → Int → ℚ → Enemy
  attack : Enemy → Player → ℚ → Enemy
  search : Enemy → Player → ℚ → Enemy

/-- A do-nothing instantiation of the exercise state handlers, used to
evaluate concrete runs whose execution never reaches those states. -/
def inertHandlers : StateHandlers :=
  ⟨fun e _ _ _ _ => e, fun e _ _ _ _ => e, fun e _ _ => e, fun e _ _ => e⟩

/-- `UpdateEnemyAI` from lesson 14: refresh perception, then dispatch on
the current state. The C `switch` has no `AI_STATE_DEAD` case, so a DEAD
enemy is left as perception produced it. -/
def UpdateEnemyAI (h : StateHandlers) (enemy : Enemy) (player : Player)
    (map : List Char) (mapWidth mapHeight : Nat) (deltaTime : ℚ)
    (randVal : Nat) : Enemy :=
  let e := UpdateEnemyPerception enemy player map (mapWidth : Int)
  match e.state with
  | .IDLE => UpdateIdleState e player randVal
  | .PATROL => h.patrol e player map (mapWidth : Int) deltaTime
  | .CHASE => UpdateChaseState e player map mapWidth mapHeight deltaTime
  | .FLEE => h.flee e player map (mapWidth : Int) deltaTime
  | .ATTACK => h.attack e player deltaTime
  | .SEARCH => h.search e player deltaTime
  | .DEAD => e

/-- Modelled from the spec: no lesson under the sources implements the
transition into `AI_STATE_DEAD`; per spec §4.6 and §6, DEAD is reachable
from every other state when the agent's health has dropped to 0 or below
(observed by the state machine after `applyDamage`). -/
def deathCheck (enemy : Enemy) : Enemy :=
  if enemy.health ≤ 0 then { enemy with state := .DEAD } else enemy

/-- The `AlertSystem` struct of lesson 14. -/
structure AlertSystem where
  alertX : Int
  alertY : Int
  alertTime : ℚ
  alerterId : Int
deriving DecidableEq, Repr

/-- The ally-notification walk inside `RaiseAlert`: the C pointer test
`current != alerter` is embedded as a positional index test. Only IDLE
enemies within hearing range react: guards go to SEARCH toward the alert
position, cowards flee. -/
def alertScan (alerterIdx : Nat) (alerter : Enemy) :
    Nat → List Enemy → List Enemy
  | _, [] => []
  | j, e :: rest =>
    (if j ≠ alerterIdx ∧ e.state = .IDLE then
      if ManhattanDistance e.x e.y alerter.x alerter.y ≤ e.hearingRange then
        if e.type = .GUARD then
          { e with state := .SEARCH, lastSeenPlayerX := alerter.x,
                   lastSeenPlayerY := alerter.y }
        else if e.courage < 1/2 then { e with state := .FLEE }
        else e
      else e
    else e) :: alertScan alerterIdx alerter (j + 1) rest

/-- `RaiseAlert` from lesson 14: record the alert at the alerter's
position and notify the other enemies. -/
def RaiseAlert (alerterIdx : Nat) (alerter : Enemy)
    (enemies : List Enemy) (_alerts : AlertSystem) :
    List Enemy × AlertSystem :=
  (alertScan alerterIdx alerter 0 enemies,
   ⟨alerter.x, alerter.y, 0, alerter.id⟩)

/-- The player-input block of the lesson-14 demo `main`: a nonzero input
moves the player unless the destination tile is a wall or any enemy
stands there. -/
def playerMove (player : Player) (enemies : List Enemy) (map : List Char)
    (mapWidth : Int) (dx dy : Int) : Player :=
  if dx ≠ 0 ∨ dy ≠ 0 then
    let newX := player.x + dx
    let newY := player.y + dy
    if mapCharAt map mapWidth newX newY ≠ '#' then
      if enemies.any fun cur =>
          decide (cur.x = newX) && decide (cur.y = newY) then player
      else { player with x := newX, y := newY }
    else player
  else player

/-- The enemy-update loop of the lesson-14 demo `main`, walking the enemy
list by position: a non-DEAD enemy is updated in place, and when it sees
the player while no alert is active it raises one (mutating the other
enemies mid-loop, as the C code does). The per-enemy `rand()` draws are
supplied by `rands`. -/
def enemyLoop (h : StateHandlers) (player : Player) (map : List Char)
    (mapWidth mapHeight : Nat) (deltaTime : ℚ) (rands : Nat → Nat) :
    Nat → Nat → List Enemy → AlertSystem → List Enemy × AlertSystem
  | 0, _, enemies, alerts => (enemies, alerts)
  | n + 1, i, enemies, alerts =>
    match enemies.get? i with
    | none => (enemies, alerts)
    | some e =>
      if e.state ≠ .DEAD then
        let e' := UpdateEnemyAI h e player map mapWidth mapHeight deltaTime
          (rands i)
        let enemies' := enemies.set i e'
        if e'.canSeePlayer = true ∧ alerts.alertTime < 0 then
          let next := RaiseAlert i e' enemies' alerts
          enemyLoop h player map mapWidth mapHeight deltaTime rands n
            (i + 1) next.1 next.2
        else
          enemyLoop h player map mapWidth mapHeight deltaTime rands n
            (i + 1) enemies' alerts
      else
        enemyLoop h player map mapWidth mapHeight deltaTime rands n (i + 1)
          enemies alerts

/-- One tick of the lesson-14 demo `main`: the player's move commits
first (checked against walls and enemy occupancy), then every enemy
updates in list order. -/
def gameTick (h : StateHandlers) (map : List Char)
    (mapWidth mapHeight : Nat) (deltaTime : ℚ) (rands : Nat → Nat)
    (dx dy : Int) (player : Player) (enemies : List Enemy)
    (alerts : AlertSystem) : Player × List Enemy × AlertSystem :=
  let p := playerMove player enemies map (mapWidth : Int) dx dy
  let next := enemyLoop h p map mapWidth mapHeight deltaTime rands
    enemies.length 0 enemies alerts
  (p, next.1, next.2)

lemma updateEnemyPerception_state (enemy : Enemy) (player : Player)
    (map : List Char) (mapWidth : Int) :
    (UpdateEnemyPerception enemy player map mapWidth).state =
      enemy.state := by
  rw [UpdateEnemyPerception]
  split <;> rfl

lemma updateEnemyPerception_of_sees (enemy : Enemy) (player : Player)
    (map : List Char) (mapWidth : Int)
    (hsee : CanSeePosition enemy player.x player.y map mapWidth = true) :
    UpdateEnemyPerception enemy player map mapWidth =
      { enemy with canSeePlayer := true, lastSeenPlayerX := player.x,
                   lastSeenPlayerY := player.y } := by
  rw [UpdateEnemyPerception, if_pos hsee]

/-- C8: an IDLE enemy with courage below 0.3 that sees the player at
Manhattan distance below 5 transitions to FLEE in the same
`UpdateEnemyAI` call, regardless of its aggression (the flee test runs
before the chase test) and of the patrol roll. -/
theorem idle_flee_precedence (h : StateHandlers) (enemy : Enemy)
    (player : Player) (map : List Char) (mapWidth mapHeight : Nat)
    (deltaTime : ℚ) (randVal : Nat)
    (hstate : enemy.state = .IDLE)
    (hsee : CanSeePosition enemy player.x player.y map
      (mapWidth : Int) = true)
    (hdist : ManhattanDistance enemy.x enemy.y player.x player.y < 5)
    (hcour : enemy.courage < 3/10) :
    (UpdateEnemyAI h enemy player map mapWidth mapHeight deltaTime
      randVal).state = .FLEE := by
  have hper := updateEnemyPerception_of_sees enemy player map
    (mapWidth : Int) hsee
  simp only [UpdateEnemyAI, hper, hstate]
  simp [UpdateIdleState, hcour, hdist]

/-- The scenario-D agent: a goblin with courage and aggression 0.1. -/
def goblinD : Enemy :=
  ⟨0, 0, 'g', 15, 15, .GOBLIN, .IDLE, 10, 5, false, 0, 0, 2, 0, 0, 5, 1, 0,
   1/10, 1/10, 3⟩

/-- Witness for C8 (scenario D): the goblin at (0, 0) sees the player at
(1, 2) — distance 3 — on the open map and ends the tick in FLEE. -/
theorem idle_flee_precedence_witness :
    (UpdateEnemyAI inertHandlers goblinD ⟨1, 2, '@', 100, 100⟩ openMap5 5 5
      1 999).state = .FLEE :=
  idle_flee_precedence inertHandlers goblinD ⟨1, 2, '@', 100, 100⟩ openMap5
    5 5 1 999 (by decide) (by decide) (by decide)
    (by simp only [goblinD]; norm_num)

lemma updateEnemyAI_dead (h : StateHandlers) (enemy : Enemy)
    (player : Player) (map : List Char) (mapWidth mapHeight : Nat)
    (deltaTime : ℚ) (randVal : Nat) (hdead : enemy.state = .DEAD) :
    (UpdateEnemyAI h enemy player map mapWidth mapHeight deltaTime
      randVal).state = .DEAD := by
  have hst : (UpdateEnemyPerception enemy player map
      (mapWidth : Int)).state = .DEAD := by
    rw [updateEnemyPerception_state]
    exact hdead
  simp only [UpdateEnemyAI]
  split <;>
    first
      | exact hst
      | (rename_i heq; rw [heq] at hst; exact absurd hst (by decide))

lemma alertScan_dead_preserved (alerterIdx : Nat) (alerter : Enemy) :
    ∀ (l : List Enemy) (j k : Nat) (e : Enemy), l.get? k = some e →
      e.state = .DEAD → (alertScan alerterIdx alerter j l).get? k = some e
  | [], _, k, e, hk, _ => by simp at hk
  | a :: t, j, 0, e, hk, hdead => by
    simp only [List.get?] at hk
    injection hk with hk
    subst hk
    simp only [alertScan, List.get?]
    rw [if_neg]
    intro hcond
    rw [hdead] at hcond
    exact absurd hcond.2 (by decide)
  | a :: t, j, k + 1, e, hk, hdead => by
    simp only [List.get?] at hk
    simp only [alertScan, List.get?]
    exact alertScan_dead_preserved alerterIdx alerter t (j + 1) k e hk hdead

lemma enemyLoop_dead_skip (h : StateHandlers) (player : Player)
    (map : List Char) (mapWidth mapHeight : Nat) (deltaTime : ℚ)
    (rands : Nat → Nat) :
    ∀ (n i : Nat) (enemies : List Enemy) (alerts : AlertSystem)
      (j : Nat) (e : Enemy), enemies.get? j = some e → e.state = .DEAD →
      ((enemyLoop h player map mapWidth mapHeight deltaTime rands n i
        enemies alerts).1).get? j = some e := by
  intro n
  induction n with
  | zero =>
    intro i enemies alerts j e hj hdead
    exact hj
  | succ n ih =>
    intro i enemies alerts j e hj hdead
    rw [enemyLoop]
    rcases hei : enemies.get? i with _ | ei
    · exact hj
    · simp only [hei]
      by_cases hd : ei.state ≠ .DEAD
      · rw [if_pos hd]
        have hij : i ≠ j := by
          intro hcontra
          subst hcontra
          rw [hei] at hj
          injection hj with hj
          subst hj
          exact hd hdead
        have hset : (enemies.set i (UpdateEnemyAI h ei player map mapWidth
            mapHeight deltaTime (rands i))).get? j = some e := by
          rw [List.get?_eq_getElem?, List.getElem?_set_ne hij,
            ← List.get?_eq_getElem?]
          exact hj
        by_cases halert : (UpdateEnemyAI h ei player map mapWidth mapHeight
            deltaTime (rands i)).canSeePlayer = true ∧ alerts.alertTime < 0
        · rw [if_pos halert]
          exact ih (i + 1) _ _ j e
            (alertScan_dead_preserved i _ _ 0 j e hset hdead) hdead
        · rw [if_neg halert]
          exact ih (i + 1) _ _ j e hset hdead
      · rw [if_neg hd]
        exact ih (i + 1) _ _ j e hj hdead

/-- C7: DEAD is terminal and is the death target. `UpdateEnemyAI` never
changes the state of a DEAD enemy (the C `switch` has no DEAD case), for
any implementation of the exercise state handlers; the demo's enemy
update loop leaves a DEAD enemy entirely untouched (it is skipped, and
`RaiseAlert` only retargets IDLE enemies); and — modelled from the spec,
since no lesson implements the death transition — an agent in any other
state whose health is 0 or less enters DEAD. -/
theorem dead_state_terminal :
    (∀ (h : StateHandlers) (enemy : Enemy) (player : Player)
      (map : List Char) (mapWidth mapHeight : Nat) (deltaTime : ℚ)
      (randVal : Nat), enemy.state = .DEAD →
      (UpdateEnemyAI h enemy player map mapWidth mapHeight deltaTime
        randVal).state = .DEAD) ∧
    (∀ (h : StateHandlers) (player : Player) (map : List Char)
      (mapWidth mapHeight : Nat) (deltaTime : ℚ) (rands : Nat → Nat)
      (n i : Nat) (enemies : List Enemy) (alerts : AlertSystem)
      (j : Nat) (e : Enemy), enemies.get? j = some e → e.state = .DEAD →
      ((enemyLoop h player map mapWidth mapHeight deltaTime rands n i
        enemies alerts).1).get? j = some e) ∧
    (∀ enemy : Enemy, enemy.state ≠ .DEAD → enemy.health ≤ 0 →
      (deathCheck enemy).state = .DEAD) :=
  ⟨updateEnemyAI_dead,
   enemyLoop_dead_skip,
   fun enemy _ hh => by rw [deathCheck, if_pos hh]⟩

/-- A DEAD enemy used by the C7 witness. -/
def fallenScout : Enemy :=
  ⟨2, 2, 'z', 0, 30, .ZOMBIE, .DEAD, 10, 3, false, 0, 0, 1, 0, 0, 10, 1, 0,
   1, 1, 9⟩

/-- Witness for C7: a DEAD enemy keeps its state through `UpdateEnemyAI`,
survives a full enemy-loop pass untouched, and a wounded IDLE enemy dies
in the death check. -/
theorem dead_state_terminal_witness :
    (UpdateEnemyAI inertHandlers fallenScout ⟨1, 2, '@', 100, 100⟩ openMap5
      5 5 1 0).state = .DEAD ∧
    ((enemyLoop inertHandlers ⟨1, 2, '@', 100, 100⟩ openMap5 5 5 1
      (fun _ => 0) 1 0 [fallenScout] ⟨0, 0, -1, -1⟩).1).get? 0 =
      some fallenScout ∧
    (deathCheck ⟨2, 2, 'z', 0, 30, .ZOMBIE, .IDLE, 10, 3, false, 0, 0, 1, 0,
      0, 10, 1, 0, 1, 1, 9⟩).state = .DEAD :=
  ⟨dead_state_terminal.1 inertHandlers fallenScout ⟨1, 2, '@', 100, 100⟩
      openMap5 5 5 1 0 rfl,
   dead_state_terminal.2.1 inertHandlers ⟨1, 2, '@', 100, 100⟩ openMap5 5 5
      1 (fun _ => 0) 1 0 [fallenScout] ⟨0, 0, -1, -1⟩ 0 fallenScout rfl rfl,
   dead_state_terminal.2.2 ⟨2, 2, 'z', 0, 30, .ZOMBIE, .IDLE, 10, 3, false,
      0, 0, 1, 0, 0, 10, 1, 0, 1, 1, 9⟩ (by decide) (by decide)⟩

lemma updateChaseState_moves (enemy : Enemy) (player : Player)
    (map : List Char) (mapWidth mapHeight : Nat) (deltaTime : ℚ)
    (hsee : enemy.canSeePlayer = true)
    (hdist : ¬(ManhattanDistance enemy.x enemy.y player.x player.y ≤ 1))
    (htime : enemy.timeSinceMove + deltaTime ≥ 1 / enemy.moveSpeed) :
    UpdateChaseState enemy player map mapWidth mapHeight deltaTime =
      { MoveTowardsTarget
          { enemy with timeSinceMove := enemy.timeSinceMove + deltaTime }
          player.x player.y map mapWidth mapHeight with
        timeSinceMove := 0 } := by
  rcases enemy with ⟨ex, ey, es, eh, emh, et, est, esr, ehr, ecs, elx, ely,
    ems, etm, epi, ead, eac, eta, eco, eag, eid⟩
  simp only at hsee hdist htime
  simp only [UpdateChaseState]
  rw [if_neg (by rw [hsee]; simp), if_neg hdist, if_pos htime]

/-- The two chasing zombies of the C5 counterexample, both in CHASE with
their move timers ready. -/
def chaserA : Enemy :=
  ⟨0, 1, 'z', 30, 30, .ZOMBIE, .CHASE, 10, 3, true, 0, 0, 1, 1, 0, 10, 1,
   0, 1, 1, 1⟩

def chaserB : Enemy :=
  ⟨1, 0, 'z', 30, 30, .ZOMBIE, .CHASE, 10, 3, true, 0, 0, 1, 1, 0, 10, 1,
   0, 1, 1, 2⟩

def playerC : Player := ⟨3, 3, '@', 100, 100⟩

/-- `chaserA` after one update: it has stepped onto (1, 1). -/
def chaserA2 : Enemy :=
  ⟨1, 1, 'z', 30, 30, .ZOMBIE, .CHASE, 10, 3, true, 3, 3, 1, 0, 0, 10, 1,
   0, 1, 1, 1⟩

/-- `chaserB` after one update: it has also stepped onto (1, 1). -/
def chaserB2 : Enemy :=
  ⟨1, 1, 'z', 30, 30, .ZOMBIE, .CHASE, 10, 3, true, 3, 3, 1, 0, 0, 10, 1,
   0, 1, 1, 2⟩

lemma chaserA_eval :
    UpdateEnemyAI inertHandlers chaserA playerC openMap5 5 5 1 999 =
      chaserA2 := by
  rw [UpdateEnemyAI,
    updateEnemyPerception_of_sees chaserA playerC openMap5 ((5 : Nat) : Int) (by decide)]
  simp only [chaserA]
  rw [updateChaseState_moves _ _ _ _ _ _ rfl (by decide) (by norm_num)]
  simp +decide [MoveTowardsTarget, CanMoveToTile, mapCharAt, openMap5,
    chaserA2, playerC]

lemma chaserB_eval :
    UpdateEnemyAI inertHandlers chaserB playerC openMap5 5 5 1 999 =
      chaserB2 := by
  rw [UpdateEnemyAI,
    updateEnemyPerception_of_sees chaserB playerC openMap5 ((5 : Nat) : Int) (by decide)]
  simp only [chaserB]
  rw [updateChaseState_moves _ _ _ _ _ _ rfl (by decide) (by norm_num)]
  simp +decide [MoveTowardsTarget, CanMoveToTile, mapCharAt, openMap5,
    chaserB2, playerC]

lemma tick_eval :
    gameTick inertHandlers openMap5 5 5 1 (fun _ => 999) 0 0 playerC
      [chaserA, chaserB] ⟨0, 0, 0, 0⟩ =
      (playerC, [chaserA2, chaserB2], ⟨0, 0, 0, 0⟩) := by
  simp only [gameTick]
  rw [show playerMove playerC [chaserA, chaserB] openMap5 ((5 : Nat) : Int)
      0 0 = playerC from rfl,
    show ([chaserA, chaserB] : List Enemy).length = 2 from rfl]
  simp +decide [enemyLoop, List.get?, List.set, chaserA_eval, chaserB_eval,
    lt_self_iff_false]

/-- C5 counterexample: from a legal state (player and both enemies on
pairwise distinct open tiles), one tick with no player input commits both
live solid enemies onto the same tile (1, 1) — enemy movement checks the
map but never entity occupancy. -/
theorem tick_overlap_counterexample :
    (¬(chaserA.x = chaserB.x ∧ chaserA.y = chaserB.y) ∧
      ¬(chaserA.x = playerC.x ∧ chaserA.y = playerC.y) ∧
      ¬(chaserB.x = playerC.x ∧ chaserB.y = playerC.y)) ∧
    ((gameTick inertHandlers openMap5 5 5 1 (fun _ => 999) 0 0 playerC
        [chaserA, chaserB] ⟨0, 0, 0, 0⟩).2.1.map fun e =>
          (e.x, e.y, e.state)) =
      [(1, 1, .CHASE), (1, 1, .CHASE)] := by
  refine ⟨by decide, ?_⟩
  rw [tick_eval]
  decide

/-- C5 (amended): the only occupancy-checked commit of the lesson-14 tick
is the player's: if no enemy stands on the player's tile before the move,
no enemy stands on the player's committed tile after it. Enemy updates
validate against the map only, so the tick-wide exclusion fails for
enemies (see the counterexample). -/
theorem playerMove_no_overlap (player : Player) (enemies : List Enemy)
    (map : List Char) (mapWidth : Int) (dx dy : Int)
    (hinv : ∀ e ∈ enemies, ¬(e.x = player.x ∧ e.y = player.y)) :
    ∀ e ∈ enemies,
      ¬(e.x = (playerMove player enemies map mapWidth dx dy).x ∧
        e.y = (playerMove player enemies map mapWidth dx dy).y) := by
  intro e he
  rw [playerMove]
  by_cases h1 : dx ≠ 0 ∨ dy ≠ 0
  · rw [if_pos h1]
    by_cases h2 : mapCharAt map mapWidth (player.x + dx)
        (player.y + dy) ≠ '#'
    · rw [if_pos h2]
      by_cases h3 : (enemies.any fun cur =>
          decide (cur.x = player.x + dx) &&
            decide (cur.y = player.y + dy)) = true
      · rw [if_pos h3]
        exact hinv e he
      · rw [if_neg h3]
        rintro ⟨hex, hey⟩
        apply h3
        rw [List.any_eq_true]
        refine ⟨e, he, ?_⟩
        simp only at hex hey
        simp [hex, hey]
    · rw [if_neg h2]
      exact hinv e he
  · rw [if_neg h1]
    exact hinv e he

/-- Witness for the amended C5: the player steps right from (3, 3) on the
open map with one enemy at (0, 1); the enemy is not on the committed
tile. -/
theorem playerMove_no_overlap_witness :
    ¬(chaserA.x = (playerMove playerC [chaserA] openMap5 5 1 0).x ∧
      chaserA.y = (playerMove playerC [chaserA] openMap5 5 1 0).y) :=
  playerMove_no_overlap playerC [chaserA] openMap5 5 1 0 (by decide)
    chaserA (List.mem_singleton.mpr rfl)

/-- C4 counterexample: `PushEntity` validates nothing (the lesson's own
comment says a real game would check the push destination), so pushing the
occupant of (1, 0) from (0, 0) commits it onto the SOLID tile at (2, 0),
even though both agents started on walkable tiles. -/
theorem pushEntity_commits_onto_solid :
    (PushEntity ⟨0, 0, '@', true, true, 1⟩ ⟨1, 0, 'N', true, true, 2⟩).x =
      2 ∧
    (PushEntity ⟨0, 0, '@', true, true, 1⟩ ⟨1, 0, 'N', true, true, 2⟩).y =
      0 ∧
    tileAtMap ⟨['.', '.', '#', '.', '.'], ['.', '.', '#', '.', '.'], 5, 1⟩
      2 0 = '#' ∧
    tileAtMap ⟨['.', '.', '#', '.', '.'], ['.', '.', '#', '.', '.'], 5, 1⟩
      0 0 ≠ '#' ∧
    tileAtMap ⟨['.', '.', '#', '.', '.'], ['.', '.', '#', '.', '.'], 5, 1⟩
      1 0 ≠ '#' := by decide

lemma foldl_breadcrumb_wall (enemy : Enemy) (map : List Char)
    (mapWidth mapHeight : Nat) (dm : List Int) :
    ∀ (l : List (Int × Int)) (best : Int × Int × Int),
      ((best.1 = enemy.x ∧ best.2.1 = enemy.y) ∨
        mapCharAt map (mapWidth : Int) best.1 best.2.1 ≠ '#') →
      (((l.foldl (breadcrumbStep enemy map mapWidth mapHeight dm) best).1 =
          enemy.x ∧
        (l.foldl (breadcrumbStep enemy map mapWidth mapHeight dm)
          best).2.1 = enemy.y) ∨
        mapCharAt map (mapWidth : Int)
          (l.foldl (breadcrumbStep enemy map mapWidth mapHeight dm) best).1
          (l.foldl (breadcrumbStep enemy map mapWidth mapHeight dm)
            best).2.1 ≠ '#')
  | [], _, hP => hP
  | p :: rest, best, hP => by
    rw [List.foldl_cons]
    apply foldl_breadcrumb_wall enemy map mapWidth mapHeight dm rest
    rw [breadcrumbStep_def]
    split
    · rename_i hcond
      split
      · exact Or.inr hcond.2.2.2.2
      · exact hP
    · exact hP

lemma moveTowardsTarget_result (enemy : Enemy) (targetX targetY : Int)
    (map : List Char) (mapWidth mapHeight : Nat) :
    MoveTowardsTarget enemy targetX targetY map mapWidth mapHeight =
      enemy ∨
    ∃ nx ny : Int,
      MoveTowardsTarget enemy targetX targetY map mapWidth mapHeight =
        { enemy with x := nx, y := ny } ∧
      CanMoveToTile map mapWidth mapHeight nx ny = true := by
  simp only [MoveTowardsTarget]
  repeat' split
  all_goals
    first
      | exact Or.inl rfl
      | (rename_i h; exact Or.inr ⟨_, _, rfl, h⟩)

/-- C4 (amended): every position-changing operation except `PushEntity`
maintains the never-on-SOLID invariant. A move `CheckAllCollisions`
allows never targets a tile classified SOLID; `MoveTowardsTarget` (with
the spec-modelled `CanMoveTo`) and `MoveWithBreadcrumbs` leave an agent
that starts on a walkable tile on a walkable tile; and `SwapPositions`
keeps both agents on previously occupied tiles. `PushEntity` performs no
validation and can commit its target onto a SOLID tile (see the
counterexample). -/
theorem committed_position_not_solid :
    (∀ (map : LayeredMap) (entityList : List Entity) (mover : Entity)
      (newX newY : Int),
      (CheckAllCollisions map entityList mover newX newY).canMove = true →
      tileAtMap map newX newY ≠ '#' ∧ tileAtMap map newX newY ≠ '+') ∧
    (∀ (enemy : Enemy) (targetX targetY : Int) (map : List Char)
      (mapWidth mapHeight : Nat),
      mapCharAt map (mapWidth : Int) enemy.x enemy.y ≠ '#' →
      mapCharAt map (mapWidth : Int)
        (MoveTowardsTarget enemy targetX targetY map mapWidth mapHeight).x
        (MoveTowardsTarget enemy targetX targetY map mapWidth
          mapHeight).y ≠ '#') ∧
    (∀ (enemy : Enemy) (targetX targetY : Int) (map : List Char)
      (mapWidth mapHeight : Nat),
      mapCharAt map (mapWidth : Int) enemy.x enemy.y ≠ '#' →
      mapCharAt map (mapWidth : Int)
        (MoveWithBreadcrumbs enemy targetX targetY map mapWidth
          mapHeight).x
        (MoveWithBreadcrumbs enemy targetX targetY map mapWidth
          mapHeight).y ≠ '#') ∧
    (∀ (mover target : Entity) (map : LayeredMap),
      tileAtMap map mover.x mover.y ≠ '#' →
      tileAtMap map target.x target.y ≠ '#' →
      tileAtMap map (SwapPositions mover target).1.x
          (SwapPositions mover target).1.y ≠ '#' ∧
        tileAtMap map (SwapPositions mover target).2.x
          (SwapPositions mover target).2.y ≠ '#') := by
  refine ⟨?_, ?_, ?_, ?_⟩
  · intro map entityList mover newX newY hcan
    by_cases hIn : newX < 0 ∨ newX ≥ map.width ∨ newY < 0 ∨
        newY ≥ map.height
    · simp [CheckAllCollisions, hIn] at hcan
    · constructor <;> intro htile <;>
        simp [CheckAllCollisions, hIn, htile, applyRules, defaultRules]
          at hcan
  · intro enemy targetX targetY map mapWidth mapHeight hcur
    rcases moveTowardsTarget_result enemy targetX targetY map mapWidth
        mapHeight with h | ⟨nx, ny, heq, hcm⟩
    · rw [h]
      exact hcur
    · rw [heq]
      simp only [CanMoveToTile, Bool.and_eq_true, decide_eq_true_eq] at hcm
      simpa using hcm.2
  · intro enemy targetX targetY map mapWidth mapHeight hcur
    rw [moveWithBreadcrumbs_def]
    rcases foldl_breadcrumb_wall enemy map mapWidth mapHeight
        (floodFill map mapWidth mapHeight targetX targetY) dirs
        (enemy.x, enemy.y, 2147483647) (Or.inl ⟨rfl, rfl⟩) with
      ⟨hx, hy⟩ | hw
    · simpa [hx, hy] using hcur
    · simpa using hw
  · intro mover target map h1 h2
    exact ⟨h2, h1⟩

/-- Witness for the amended C4 at concrete inputs: an allowed move of the
collision demo lands on a walkable tile; a chasing zombie's step and a
breadcrumb step stay off walls; and swapped entities stay on open
tiles. -/
theorem committed_position_not_solid_witness :
    (tileAtMap ⟨List.replicate 9 '.',
        ['#', '.', '.', '.', '=', '.', '.', '.', '.'], 3, 3⟩ 1 1 ≠ '#' ∧
      tileAtMap ⟨List.replicate 9 '.',
        ['#', '.', '.', '.', '=', '.', '.', '.', '.'], 3, 3⟩ 1 1 ≠ '+') ∧
    mapCharAt openMap5 ((5 : Nat) : Int)
      (MoveTowardsTarget chaserA 3 3 openMap5 5 5).x
      (MoveTowardsTarget chaserA 3 3 openMap5 5 5).y ≠ '#' ∧
    mapCharAt openMap5 ((5 : Nat) : Int)
      (MoveWithBreadcrumbs chaserA 3 3 openMap5 5 5).x
      (MoveWithBreadcrumbs chaserA 3 3 openMap5 5 5).y ≠ '#' ∧
    (tileAtMap ⟨List.replicate 9 '.',
        ['#', '.', '.', '.', '=', '.', '.', '.', '.'], 3, 3⟩
        (SwapPositions ⟨1, 1, '@', true, true, 1⟩
          ⟨2, 1, 'N', true, true, 2⟩).1.x
        (SwapPositions ⟨1, 1, '@', true, true, 1⟩
          ⟨2, 1, 'N', true, true, 2⟩).1.y ≠ '#' ∧
      tileAtMap ⟨List.replicate 9 '.',
        ['#', '.', '.', '.', '=', '.', '.', '.', '.'], 3, 3⟩
        (SwapPositions ⟨1, 1, '@', true, true, 1⟩
          ⟨2, 1, 'N', true, true, 2⟩).2.x
        (SwapPositions ⟨1, 1, '@', true, true, 1⟩
          ⟨2, 1, 'N', true, true, 2⟩).2.y ≠ '#') :=
  ⟨committed_position_not_solid.1 _ [] ⟨1, 1, '@', true, true, 1⟩ 1 1
      (by decide),
   committed_position_not_solid.2.1 chaserA 3 3 openMap5 5 5 (by decide),
   committed_position_not_solid.2.2.1 chaserA 3 3 openMap5 5 5 (by decide),
   committed_position_not_solid.2.2.2 ⟨1, 1, '@', true, true, 1⟩
      ⟨2, 1, 'N', true, true, 2⟩ _ (by decide) (by decide)⟩

end AsciiRpg
